import Mathlib

/-!
Verification of the scan-orchestration core of `aws-resource-inventory`.

The Python modules embedded here:
* `src/aws_resource_inventory/config.py` — account blacklist filtering;
* `src/aws_resource_inventory/aws_auth.py` — `OIDCAuthenticator.get_account_credentials`;
* `src/aws_resource_inventory/scanners/base.py` — `BaseScanner.scan_account_region`;
* `src/aws_resource_inventory/scanners/__init__.py` — the static scanner registry;
* `src/aws_resource_inventory/main.py` — `AWSResourceInventory._scan_account`,
  `AWSResourceInventory.scan_organization` and the fatal-error handling in `run`.

Network behaviour (boto3 calls) is abstracted as oracles: every AWS call site
takes the call's observable outcome as an explicit argument, so every function
here is a pure, executable translation of the corresponding Python control flow.
-/

namespace AwsInventory

/-- A resource record: the open field-name → value dictionary a scanner's
`scan` returns one of per resource.  The orchestration core treats it as
opaque data. -/
abbrev ResourceRecord := List (String × String)

/-- The static descriptor part of a `BaseScanner` subclass: its class
attributes `resource_type`, `sheet_name` and `is_global`
(`scanners/base.py` lines 67-70). -/
structure Scanner where
  resource_type : String
  sheet_name : String
  is_global : Bool
deriving DecidableEq, Repr

/-- The credentials dictionary built by `get_account_credentials`
(`aws_auth.py` lines 103-107): the three components copied from the STS
response. -/
structure Credentials where
  aws_access_key_id : String
  aws_secret_access_key : String
  aws_session_token : String
deriving DecidableEq, Repr

/-- Outcome of the `sts.assume_role` call inside `get_account_credentials`
in the cases its `try/except` handles (`aws_auth.py` lines 96-100 and
109-115): a response carrying the three credential components, or a
botocore `ClientError` with an error code (for example `AccessDenied`) and
a message.  The `except` clause catches only `ClientError`; a call that
raises any other exception is not covered by this type — that raising path
is modelled by `StsAssumeRoleCall.raises` and `get_account_credentials_call`
below, and `scanOrganizationFull` carries it through the orchestrator. -/
inductive StsAssumeRole where
  | ok (accessKeyId secretAccessKey sessionToken : String)
  | clientError (code message : String)
deriving DecidableEq, Repr

/-- `OIDCAuthenticator.get_account_credentials` (`aws_auth.py` lines 80-115)
on the outcomes its `except ClientError` handles: on success it returns the
dict with the three fields copied from `response['Credentials']`; on any
`ClientError` (the `AccessDenied` code and every other code alike, which
differ only in the log level used) it returns `None`. -/
def get_account_credentials (r : StsAssumeRole) : Option Credentials :=
  match r with
  | .ok a s t => some ⟨a, s, t⟩
  | .clientError _ _ => none

/-- The full observable outcome of the `sts.assume_role` call inside
`get_account_credentials`: either it returns or raises a `ClientError`
(both handled, `returns`), or it raises any other exception — for example a
botocore connect timeout, which does not subclass `ClientError` — which
`aws_auth.py` line 109's `except ClientError` does not catch (`raises`). -/
inductive StsAssumeRoleCall where
  | returns (r : StsAssumeRole)
  | raises (message : String)
deriving DecidableEq, Repr

/-- `OIDCAuthenticator.get_account_credentials` as its caller observes it on
the full call-outcome domain: a handled outcome yields the `Option` result
of `get_account_credentials`; a non-`ClientError` exception propagates out
of the function uncaught. -/
def get_account_credentials_call (c : StsAssumeRoleCall) :
    Except String (Option Credentials) :=
  match c with
  | .returns r => .ok (get_account_credentials r)
  | .raises message => .error message

/-- Observable outcome of the `self.scan(session, ...)` call (together with
the `boto3.Session` construction preceding it) inside
`BaseScanner.scan_account_region` (`scanners/base.py` lines 124-133):
a complete record list, a botocore `ClientError` with a code, or any other
exception rendered as its `str(e)` message. -/
inductive ScanCallResult where
  | ok (records : List ResourceRecord)
  | clientError (code message : String)
  | exn (message : String)
deriving DecidableEq, Repr

/-- The records a scan call produced: its record list if it succeeded,
nothing if it raised. -/
def ScanCallResult.okRecords : ScanCallResult → List ResourceRecord
  | .ok records => records
  | .clientError _ _ => []
  | .exn _ => []

/-- Whether the underlying scan call succeeded (did not raise). -/
def ScanCallResult.isOk : ScanCallResult → Bool
  | .ok _ => true
  | .clientError _ _ => false
  | .exn _ => false

/-- The common prefix of every error string built in
`BaseScanner.scan_account_region` (`scanners/base.py` lines 139, 141, 145):
`f"{self.resource_type} - {account_id} ({account_name}) - {region}: "`. -/
def scanPrefix (resource_type account_id account_name region : String) : String :=
  resource_type ++ " - " ++ account_id ++ " (" ++ account_name ++ ") - " ++ region ++ ": "

/-- `BaseScanner.scan_account_region` (`scanners/base.py` lines 110-148):
runs the scan and returns `(resources, error)`.  `resources` starts as `[]`
and is only assigned from a completed `self.scan` call, so a raising call
leaves it empty; a `ClientError` whose code is `AccessDenied` or
`UnauthorizedAccess` yields the `"... : Access Denied"` message, any other
`ClientError` and any other exception yield `"... : {str(e)}"`. -/
def scan_account_region (resource_type : String) (res : ScanCallResult)
    (account_id account_name region : String) :
    List ResourceRecord × Option String :=
  match res with
  | .ok records => (records, none)
  | .clientError code message =>
      if code = "AccessDenied" ∨ code = "UnauthorizedAccess" then
        ([], some (scanPrefix resource_type account_id account_name region ++ "Access Denied"))
      else
        ([], some (scanPrefix resource_type account_id account_name region ++ message))
  | .exn message =>
      ([], some (scanPrefix resource_type account_id account_name region ++ message))

theorem scanPrefix_ne_empty (rt a n r : String) : scanPrefix rt a n r ≠ "" := by
  intro h
  have hd : (scanPrefix rt a n r).data = [] := by
    rw [h]
  simp only [scanPrefix] at hd
  have : (rt ++ " - " ++ a ++ " (" ++ n ++ ") - " ++ r ++ ": ").data
      = rt.data ++ " - ".data ++ a.data ++ " (".data ++ n.data ++ ") - ".data
        ++ r.data ++ ": ".data := rfl
  rw [this] at hd
  simp at hd

/-! ### `_scan_account` (`main.py` lines 58-95) -/

/-- `resources_by_scanner[key].extend(value)` on a
`collections.defaultdict(list)`: if the key is present its list is extended
in place, otherwise the key is inserted at the end with the given list
(Python dicts preserve insertion order). -/
def ddExtend (m : List (String × List ResourceRecord)) (k : String)
    (v : List ResourceRecord) : List (String × List ResourceRecord) :=
  match m with
  | [] => [(k, v)]
  | (k0, v0) :: rest =>
      if k0 = k then (k0, v0 ++ v) :: rest else (k0, v0) :: ddExtend rest k v

/-- Dictionary lookup on an association list, defaulting to `[]`
(the value a `defaultdict(list)` would expose for an absent key). -/
def lookupList (m : List (String × List ResourceRecord)) (k : String) :
    List ResourceRecord :=
  match m with
  | [] => []
  | (k0, v0) :: rest => if k0 = k then v0 else lookupList rest k

/-- Concatenation of every value bound to `k`, in entry order.  On a
duplicate-free-key dictionary this agrees with `lookupList`. -/
def lookupAll (m : List (String × List ResourceRecord)) (k : String) :
    List ResourceRecord :=
  m.flatMap (fun kv => if kv.1 = k then kv.2 else [])

/-- The keys of an association list, in order. -/
def keysOf (m : List (String × List ResourceRecord)) : List String :=
  m.map Prod.fst

/-- The evolving local state of one `_scan_account` call: the
`resources_by_scanner` defaultdict, the `errors` list, and (as pure
instrumentation for the proofs) the ordered log of the
`scanner.scan_account_region` calls made, as (scanner, region) pairs. -/
structure AccountScanState where
  resources_by_scanner : List (String × List ResourceRecord)
  errors : List String
  calls : List (Scanner × String)
deriving DecidableEq, Repr

/-- One `scanner.scan_account_region(credentials, account_id, account_name,
region)` call inside `_scan_account` (`main.py` lines 79-84 and 88-93):
extend the scanner's sheet entry with the returned resources, append the
error if one was returned, and log the call.  `scanCall` is the oracle
giving the underlying scan call's outcome for each (scanner, region). -/
def scanOneRegion (scanCall : Scanner → String → ScanCallResult)
    (account_id account_name : String) (st : AccountScanState)
    (sc : Scanner) (region : String) : AccountScanState :=
  let out := scan_account_region sc.resource_type (scanCall sc region)
    account_id account_name region
  { resources_by_scanner := ddExtend st.resources_by_scanner sc.sheet_name out.1
    errors := st.errors ++ out.2.toList
    calls := st.calls ++ [(sc, region)] }

/-- The body of the `for scanner in self.scanners` loop of `_scan_account`
(`main.py` lines 73-93): a global scanner is scanned once with the first
configured region (`self.config.target_regions[0]`; the Python code would
raise `IndexError` on an empty region list, so theorems about this
definition assume the configured list is non-empty), a regional scanner is
scanned once per configured region in order. -/
def scanScannerStep (regions : List String)
    (scanCall : Scanner → String → ScanCallResult)
    (account_id account_name : String)
    (st : AccountScanState) (sc : Scanner) : AccountScanState :=
  if sc.is_global then
    scanOneRegion scanCall account_id account_name st sc regions.headI
  else
    regions.foldl (fun st r => scanOneRegion scanCall account_id account_name st sc r) st

/-- `AWSResourceInventory._scan_account` (`main.py` lines 58-95): scan every
registered scanner for one account, starting from an empty defaultdict and
empty error list, and return the final state (the Python function returns
`(dict(resources_by_scanner), errors)`; the call log is proof
instrumentation). -/
def scanAccount (scanners : List Scanner) (regions : List String)
    (scanCall : Scanner → String → ScanCallResult)
    (account_id account_name : String) : AccountScanState :=
  scanners.foldl (scanScannerStep regions scanCall account_id account_name)
    ⟨[], [], []⟩

/-- The regions a scanner is invoked with for one account: the first
configured region alone if it is global, every configured region
otherwise. -/
def unitRegions (regions : List String) (sc : Scanner) : List String :=
  if sc.is_global then [regions.headI] else regions

/-- The full ordered sequence of (scanner, region) invocations `_scan_account`
performs: scanners in registry order, each with its applicable regions in
configured order. -/
def scanUnits (scanners : List Scanner) (regions : List String) :
    List (Scanner × String) :=
  scanners.flatMap (fun sc => (unitRegions regions sc).map (fun r => (sc, r)))

/-! ### Configuration (`config.py`) -/

/-- `Config.is_account_allowed` (`config.py` lines 41-43): an account may be
scanned iff its id is not in the configured blacklist. -/
def is_account_allowed (blacklist : List String) (account_id : String) : Bool :=
  ! blacklist.contains account_id

/-- `Config.filter_accounts` (`config.py` lines 45-51): keep, in order, the
accounts whose id is allowed.  Accounts are (id, name) pairs, mirroring the
`{account_id: account_name}` dict (Python dicts preserve insertion order
and have unique keys). -/
def filter_accounts (blacklist : List String)
    (accounts : List (String × String)) : List (String × String) :=
  accounts.filter (fun a => is_account_allowed blacklist a.1)

/-! ### `scan_organization` (`main.py` lines 97-194) and the fatal paths -/

/-- One entry of `self.results`: the `ScanResult` dataclass
(`scanners/base.py` lines 13-20) as initialised at `main.py` lines 126-133;
only its `resources` field is mutated afterwards (`main.py` line 183). -/
structure ScanResultEntry where
  resource_type : String
  sheet_name : String
  resources : List ResourceRecord
  errors : List String
  is_global : Bool
deriving DecidableEq, Repr

/-- Python dict assignment `d[k] = v`: replace the value if the key exists,
otherwise append the binding. -/
def dictInsert (m : List (String × ScanResultEntry)) (k : String)
    (v : ScanResultEntry) : List (String × ScanResultEntry) :=
  match m with
  | [] => [(k, v)]
  | (k0, v0) :: rest =>
      if k0 = k then (k0, v) :: rest else (k0, v0) :: dictInsert rest k v

/-- The `self.results` initialisation loop (`main.py` lines 126-133): one
empty `ScanResult` per scanner, keyed by sheet name. -/
def initResults (scanners : List Scanner) : List (String × ScanResultEntry) :=
  scanners.foldl
    (fun m sc => dictInsert m sc.sheet_name
      ⟨sc.resource_type, sc.sheet_name, [], [], sc.is_global⟩) []

/-- `self.results[scanner_name].resources.extend(resources)`
(`main.py` line 183).  The Python line raises `KeyError` on an absent key;
that is unreachable because every key of an account's `resources_by_scanner`
is a sheet name of the same registry `self.results` was initialised from,
so an absent key is modelled as a no-op. -/
def resultsExtend (m : List (String × ScanResultEntry)) (k : String)
    (v : List ResourceRecord) : List (String × ScanResultEntry) :=
  match m with
  | [] => []
  | (k0, e) :: rest =>
      if k0 = k then (k0, { e with resources := e.resources ++ v }) :: rest
      else (k0, e) :: resultsExtend rest k v

/-- The merge loop of `scan_organization` (`main.py` lines 182-183): fold an
account's `resources_by_scanner` dict into `self.results` entry by entry. -/
def mergeResources (results : List (String × ScanResultEntry))
    (d : List (String × List ResourceRecord)) :
    List (String × ScanResultEntry) :=
  d.foldl (fun m kv => resultsExtend m kv.1 kv.2) results

/-- The record list accumulated for sheet `k` (empty when the sheet is
absent). -/
def resultsRecords (m : List (String × ScanResultEntry)) (k : String) :
    List ResourceRecord :=
  match m with
  | [] => []
  | (k0, e) :: rest => if k0 = k then e.resources else resultsRecords rest k

/-- Whether `self.results` has an entry for sheet `k`. -/
def resultsContains (m : List (String × ScanResultEntry)) (k : String) : Bool :=
  m.any (fun kv => kv.1 = k)

/-- The error recorded when credential delegation fails for an account
(`main.py` lines 160-162). -/
def credFailMsg (a : String × String) : String :=
  "Failed to get credentials for " ++ a.1 ++ " (" ++ a.2 ++ ")"

/-- The credential-failure errors appended by the submission loop
(`main.py` lines 155-164), in account order: one entry per account whose
`get_account_credentials` call yielded nothing.  `credsOf` is the oracle
giving each account's delegation outcome. -/
def credErrors (credsOf : String → Option Credentials)
    (accounts : List (String × String)) : List String :=
  accounts.filterMap (fun a =>
    match credsOf a.1 with
    | none => some (credFailMsg a)
    | some _ => none)

/-- The accounts actually submitted to the thread pool (`main.py` lines
166-172): those whose credential delegation succeeded, in account order. -/
def submittedAccounts (credsOf : String → Option Credentials)
    (accounts : List (String × String)) : List (String × String) :=
  accounts.filter (fun a => (credsOf a.1).isSome)

/-- What `future.result()` yields for one submitted account (`main.py`
line 179): the `_scan_account` return state, or the exception the task
raised (with, as instrumentation, the scan_account_region calls it made
before raising). -/
inductive TaskOutcome where
  | ok (result : AccountScanState)
  | exn (callsBeforeRaise : List (Scanner × String)) (message : String)
deriving DecidableEq, Repr

/-- Whether the scan task completed without raising. -/
def TaskOutcome.isOk : TaskOutcome → Bool
  | .ok _ => true
  | .exn _ _ => false

/-- The scan_account_region calls a task performed. -/
def TaskOutcome.callLog : TaskOutcome → List (Scanner × String)
  | .ok r => r.calls
  | .exn calls _ => calls

/-- The error recorded when a scan task raised (`main.py` line 190). -/
def unexpectedScanMsg (a : String × String) (message : String) : String :=
  "Unexpected error scanning " ++ a.1 ++ " (" ++ a.2 ++ "): " ++ message

/-- The errors one completed future contributes to `self.all_errors`
(`main.py` lines 186 and 191): the task's own error list on success, the
single `"Unexpected error scanning ..."` entry on a raise. -/
def taskErrors (a : String × String) : TaskOutcome → List String
  | .ok r => r.errors
  | .exn _ message => [unexpectedScanMsg a message]

/-- The records one completed future contributes to sheet `k`: the
concatenation of the bindings for `k` in its `resources_by_scanner` on
success, nothing on a raise. -/
def taskRecords (out : TaskOutcome) (k : String) : List ResourceRecord :=
  match out with
  | .ok r => lookupAll r.resources_by_scanner k
  | .exn _ _ => []

/-- The shared mutable state of `scan_organization`: `self.results`,
`self.all_errors` and `self.accounts_scanned`. -/
structure OrgState where
  results : List (String × ScanResultEntry)
  all_errors : List String
  accounts_scanned : Nat
deriving DecidableEq, Repr

/-- One iteration of the `as_completed` loop (`main.py` lines 175-194): on a
normal result, merge the resources, extend the error list and count the
account as scanned; on a raised exception, record the single error and
leave everything else untouched. -/
def processOutcome (st : OrgState) (a : String × String) (out : TaskOutcome) :
    OrgState :=
  match out with
  | .ok r =>
      { results := mergeResources st.results r.resources_by_scanner
        all_errors := st.all_errors ++ r.errors
        accounts_scanned := st.accounts_scanned + 1 }
  | .exn _ message =>
      { st with all_errors := st.all_errors ++ [unexpectedScanMsg a message] }

/-- Observable outcome of `self.authenticator.list_accounts()` (`main.py`
line 114, `aws_auth.py` lines 56-78): the active accounts as (id, name)
pairs, or the re-raised `ClientError`. -/
inductive ListAccountsResult where
  | ok (accounts : List (String × String))
  | clientError (message : String)
deriving DecidableEq, Repr

/-- Everything observable about one `scan_organization` run (as entered from
`run`, `main.py` lines 295-323): the `sys.exit` code if the run aborted,
whether the account-listing call was reached, the ordered log of
`get_account_credentials` calls, the log of scan_account_region calls
tagged with the account that made them, and the final shared state. -/
structure RunOutcome where
  exit_code : Option Nat
  listed_accounts : Bool
  cred_calls : List String
  scan_calls : List (String × Scanner × String)
  state : OrgState
deriving DecidableEq, Repr

/-- `AWSResourceInventory.scan_organization` (`main.py` lines 97-194) as
called from `run` (`main.py` lines 295-323).

* `verify_ok = false` models `verify_credentials()` returning `False`:
  `sys.exit(1)` fires before the account listing (`main.py` lines 107-109).
* A `ClientError` from `list_accounts` propagates out of
  `scan_organization` and is caught by `run`'s generic handler, which
  exits with status 1 (`main.py` lines 320-323); no credential call and no
  scan call has happened.
* Otherwise: the blacklist filter is applied, `self.results` is
  initialised, the submission loop requests credentials for every filtered
  account in order (recording a failure entry for each account without
  credentials and submitting the rest), and the `as_completed` loop
  processes each submitted account's outcome in arrival order — an
  arbitrary interleaving supplied as the `arrival` argument, which ranges
  over permutations of the submitted accounts.  `task` is the oracle
  giving each submitted account's future result. -/
def scanOrganization (verify_ok : Bool) (listed : ListAccountsResult)
    (blacklist : List String) (scanners : List Scanner)
    (credsOf : String → Option Credentials)
    (task : String × String → TaskOutcome)
    (arrival : List (String × String)) : RunOutcome :=
  if ! verify_ok then
    { exit_code := some 1, listed_accounts := false, cred_calls := []
      scan_calls := [], state := ⟨[], [], 0⟩ }
  else
    match listed with
    | .clientError _ =>
        { exit_code := some 1, listed_accounts := true, cred_calls := []
          scan_calls := [], state := ⟨[], [], 0⟩ }
    | .ok all_accounts =>
        let accounts := filter_accounts blacklist all_accounts
        let st0 : OrgState :=
          { results := initResults scanners
            all_errors := credErrors credsOf accounts
            accounts_scanned := 0 }
        { exit_code := none
          listed_accounts := true
          cred_calls := accounts.map Prod.fst
          scan_calls := arrival.flatMap
            (fun a => (task a).callLog.map (fun c => (a.1, c.1, c.2)))
          state := arrival.foldl (fun st a => processOutcome st a (task a)) st0 }

/-- The scan task a submitted account's future runs (`main.py` lines
166-171): `_scan_account` on that account, with the per-account scan oracle
`scanCall`.  This is the normal, non-raising task behaviour. -/
def scanAccountTask (scanners : List Scanner) (regions : List String)
    (scanCall : String → Scanner → String → ScanCallResult)
    (a : String × String) : TaskOutcome :=
  .ok (scanAccount scanners regions (scanCall a.1) a.1 a.2)

/-- `get_all_scanners` (`scanners/__init__.py` lines 53-110): the static
registry, in registration order, with each scanner's class attributes. -/
def get_all_scanners : List Scanner :=
  [ ⟨"EC2 Instance", "EC2 Instances", false⟩,
    ⟨"Lambda Function", "Lambda Functions", false⟩,
    ⟨"ECS Service", "ECS Services", false⟩,
    ⟨"ECS Task", "ECS Tasks", false⟩,
    ⟨"EKS Cluster", "EKS Clusters", false⟩,
    ⟨"Auto Scaling Group", "Auto Scaling Groups", false⟩,
    ⟨"S3 Bucket", "S3 Buckets", true⟩,
    ⟨"EBS Volume", "EBS Volumes", false⟩,
    ⟨"EFS File System", "EFS File Systems", false⟩,
    ⟨"RDS Instance", "RDS Instances", false⟩,
    ⟨"DynamoDB Table", "DynamoDB Tables", false⟩,
    ⟨"ElastiCache Cluster", "ElastiCache Clusters", false⟩,
    ⟨"Redshift Cluster", "Redshift Clusters", false⟩,
    ⟨"VPC", "VPCs", false⟩,
    ⟨"Subnet", "Subnets", false⟩,
    ⟨"Route Table", "Route Tables", false⟩,
    ⟨"Security Group", "Security Groups", false⟩,
    ⟨"NAT Gateway", "NAT Gateways", false⟩,
    ⟨"Internet Gateway", "Internet Gateways", false⟩,
    ⟨"Elastic IP", "Elastic IPs", false⟩,
    ⟨"TGW Attachment", "TGW Attachments", false⟩,
    ⟨"ALB/NLB", "ALB-NLB", false⟩,
    ⟨"Classic ELB", "Classic ELB", false⟩,
    ⟨"Target Group", "Target Groups", false⟩,
    ⟨"IAM User", "IAM Users", true⟩,
    ⟨"IAM Role", "IAM Roles", true⟩,
    ⟨"IAM Policy", "IAM Policies", true⟩,
    ⟨"KMS Key", "KMS Keys", false⟩,
    ⟨"Secret", "Secrets Manager", false⟩,
    ⟨"ACM Certificate", "ACM Certificates", false⟩,
    ⟨"CloudWatch Alarm", "CloudWatch Alarms", false⟩,
    ⟨"SNS Topic", "SNS Topics", false⟩,
    ⟨"SQS Queue", "SQS Queues", false⟩,
    ⟨"API Gateway", "API Gateway", false⟩,
    ⟨"CloudFront Distribution", "CloudFront", true⟩,
    ⟨"CloudFormation Stack", "CloudFormationStacks", false⟩,
    ⟨"CloudFormation StackSet", "CloudFormationStackSets", true⟩ ]

/-- What the submission loop (`main.py` lines 155-172) has done when it
stops, normally or by an exception: the `get_account_credentials` calls
made (in order), the credential-failure errors appended, the accounts
submitted to the pool, and the message of the exception that aborted the
loop, if one did. -/
structure SubmissionResult where
  cred_calls : List String
  errors : List String
  submitted : List (String × String)
  raised : Option String
deriving DecidableEq, Repr

/-- The submission loop of `scan_organization` (`main.py` lines 155-172)
over the full delegation-call outcomes: for each filtered account in order,
call `get_account_credentials`; `None` appends the failure entry and moves
on, a credentials dict submits the account, and an uncaught exception
(a non-`ClientError` raise inside `sts.assume_role`) aborts the loop on the
spot — the statements guarding later accounts never run. -/
def submissionLoop (credsOfCall : String → StsAssumeRoleCall) :
    List (String × String) → SubmissionResult
  | [] => ⟨[], [], [], none⟩
  | a :: rest =>
      match get_account_credentials_call (credsOfCall a.1) with
      | .error message => ⟨[a.1], [], [], some message⟩
      | .ok none =>
          let r := submissionLoop credsOfCall rest
          ⟨a.1 :: r.cred_calls, credFailMsg a :: r.errors, r.submitted, r.raised⟩
      | .ok (some _) =>
          let r := submissionLoop credsOfCall rest
          ⟨a.1 :: r.cred_calls, r.errors, a :: r.submitted, r.raised⟩

/-- `AWSResourceInventory.scan_organization` as called from `run`, over the
full delegation-call outcomes (`scanOrganization` is this function's
restriction to runs in which no delegation call raises, see
`scanOrganizationFull_no_raise`).

If a `get_account_credentials` call raises a non-`ClientError` exception,
the submission loop aborts: the already-submitted futures still execute
while the `ThreadPoolExecutor` context shuts down (their scan calls occur),
but the `as_completed` loop never runs, so nothing is merged and
`accounts_scanned` stays 0; the exception propagates out of
`scan_organization` and `run`'s generic handler (`main.py` lines 320-323)
exits the process with status 1. -/
def scanOrganizationFull (verify_ok : Bool) (listed : ListAccountsResult)
    (blacklist : List String) (scanners : List Scanner)
    (credsOfCall : String → StsAssumeRoleCall)
    (task : String × String → TaskOutcome)
    (arrival : List (String × String)) : RunOutcome :=
  if ! verify_ok then
    { exit_code := some 1, listed_accounts := false, cred_calls := []
      scan_calls := [], state := ⟨[], [], 0⟩ }
  else
    match listed with
    | .clientError _ =>
        { exit_code := some 1, listed_accounts := true, cred_calls := []
          scan_calls := [], state := ⟨[], [], 0⟩ }
    | .ok all_accounts =>
        let accounts := filter_accounts blacklist all_accounts
        let sub := submissionLoop credsOfCall accounts
        match sub.raised with
        | some _ =>
            { exit_code := some 1
              listed_accounts := true
              cred_calls := sub.cred_calls
              scan_calls := sub.submitted.flatMap
                (fun a => (task a).callLog.map (fun c => (a.1, c.1, c.2)))
              state := ⟨initResults scanners, sub.errors, 0⟩ }
        | none =>
            { exit_code := none
              listed_accounts := true
              cred_calls := sub.cred_calls
              scan_calls := arrival.flatMap
                (fun a => (task a).callLog.map (fun c => (a.1, c.1, c.2)))
              state := arrival.foldl (fun st a => processOutcome st a (task a))
                ⟨initResults scanners, sub.errors, 0⟩ }

/-! ### Structural lemmas: the defaultdict and `_scan_account` -/

theorem fst_scan_account_region (rt : String) (res : ScanCallResult)
    (a n r : String) : (scan_account_region rt res a n r).1 = res.okRecords := by
  cases res with
  | ok records => rfl
  | clientError code message =>
      simp only [scan_account_region, ScanCallResult.okRecords]
      split <;> rfl
  | exn message => rfl

theorem lookupList_ddExtend (m : List (String × List ResourceRecord))
    (k x : String) (v : List ResourceRecord) :
    lookupList (ddExtend m k v) x
      = lookupList m x ++ (if k = x then v else []) := by
  induction m with
  | nil =>
      by_cases h : k = x <;> simp [ddExtend, lookupList, h]
  | cons kv rest ih =>
      obtain ⟨k0, v0⟩ := kv
      by_cases h : k0 = k
      · subst h
        by_cases h2 : k0 = x <;> simp [ddExtend, lookupList, h2]
      · by_cases h2 : k0 = x
        · subst h2
          have hkx : ¬ k = k0 := fun hh => h hh.symm
          simp [ddExtend, lookupList, h, hkx]
        · simp [ddExtend, lookupList, h, h2, ih]

theorem mem_keysOf_ddExtend (m : List (String × List ResourceRecord))
    (k x : String) (v : List ResourceRecord) :
    x ∈ keysOf (ddExtend m k v) ↔ x ∈ keysOf m ∨ x = k := by
  induction m with
  | nil => simp [ddExtend, keysOf]
  | cons kv rest ih =>
      obtain ⟨k0, v0⟩ := kv
      by_cases h : k0 = k
      · subst h
        simp only [ddExtend, if_pos, keysOf, List.map_cons, List.mem_cons]
        constructor
        · rintro (h | h)
          · exact Or.inl (Or.inl h)
          · exact Or.inl (Or.inr h)
        · rintro ((h | h) | h)
          · exact Or.inl h
          · exact Or.inr h
          · exact Or.inl h
      · simp only [ddExtend, if_neg h, keysOf, List.map_cons, List.mem_cons]
        simp only [keysOf] at ih
        rw [ih]
        tauto

theorem nodup_keysOf_ddExtend (m : List (String × List ResourceRecord))
    (k : String) (v : List ResourceRecord) (h : (keysOf m).Nodup) :
    (keysOf (ddExtend m k v)).Nodup := by
  induction m with
  | nil => simp [ddExtend, keysOf]
  | cons kv rest ih =>
      obtain ⟨k0, v0⟩ := kv
      simp only [keysOf, List.map_cons, List.nodup_cons] at h
      by_cases hk : k0 = k
      · subst hk
        simp only [ddExtend, if_pos, keysOf, List.map_cons, List.nodup_cons]
        exact h
      · simp only [ddExtend, if_neg hk, keysOf, List.map_cons, List.nodup_cons]
        refine ⟨?_, ih h.2⟩
        intro hm
        have hm2 : k0 ∈ keysOf (ddExtend rest k v) := hm
        rw [mem_keysOf_ddExtend] at hm2
        rcases hm2 with hm2 | hm2
        · exact h.1 hm2
        · exact hk hm2

theorem lookupAll_not_mem (m : List (String × List ResourceRecord))
    (k : String) (h : k ∉ keysOf m) : lookupAll m k = [] := by
  induction m with
  | nil => rfl
  | cons kv rest ih =>
      obtain ⟨k0, v0⟩ := kv
      simp only [keysOf, List.map_cons, List.mem_cons, not_or] at h
      have h1 : ¬ k0 = k := fun hh => h.1 hh.symm
      have h2 : lookupAll rest k = [] := ih h.2
      simp [lookupAll, List.flatMap_cons, h1]
      simpa [lookupAll] using h2

theorem lookupAll_cons (k0 : String) (v0 : List ResourceRecord)
    (rest : List (String × List ResourceRecord)) (k : String) :
    lookupAll ((k0, v0) :: rest) k
      = (if k0 = k then v0 else []) ++ lookupAll rest k := by
  simp [lookupAll, List.flatMap_cons]

theorem lookupAll_eq_lookupList (m : List (String × List ResourceRecord))
    (k : String) (h : (keysOf m).Nodup) : lookupAll m k = lookupList m k := by
  induction m with
  | nil => rfl
  | cons kv rest ih =>
      obtain ⟨k0, v0⟩ := kv
      simp only [keysOf, List.map_cons, List.nodup_cons] at h
      rw [lookupAll_cons]
      by_cases hk : k0 = k
      · subst hk
        rw [lookupAll_not_mem rest k0 h.1]
        simp [lookupList]
      · rw [ih h.2]
        simp [lookupList, hk]

/-- The per-unit error contribution of one scan_account_region call. -/
def unitError (scanCall : Scanner → String → ScanCallResult)
    (account_id account_name : String) (u : Scanner × String) : List String :=
  (scan_account_region u.1.resource_type (scanCall u.1 u.2)
    account_id account_name u.2).2.toList

theorem scanOneRegion_calls (f : Scanner → String → ScanCallResult)
    (id nm : String) (st : AccountScanState) (sc : Scanner) (r : String) :
    (scanOneRegion f id nm st sc r).calls = st.calls ++ [(sc, r)] := rfl

theorem scanOneRegion_errors (f : Scanner → String → ScanCallResult)
    (id nm : String) (st : AccountScanState) (sc : Scanner) (r : String) :
    (scanOneRegion f id nm st sc r).errors
      = st.errors ++ unitError f id nm (sc, r) := rfl

theorem scanOneRegion_lookup (f : Scanner → String → ScanCallResult)
    (id nm : String) (st : AccountScanState) (sc : Scanner) (r k : String) :
    lookupList (scanOneRegion f id nm st sc r).resources_by_scanner k
      = lookupList st.resources_by_scanner k
        ++ (if sc.sheet_name = k then (f sc r).okRecords else []) := by
  simp only [scanOneRegion, lookupList_ddExtend, fst_scan_account_region]

theorem scanScannerStep_calls (f : Scanner → String → ScanCallResult)
    (regions : List String) (id nm : String) (st : AccountScanState)
    (sc : Scanner) :
    (scanScannerStep regions f id nm st sc).calls
      = st.calls ++ (unitRegions regions sc).map (fun r => (sc, r)) := by
  by_cases hg : sc.is_global
  · simp [scanScannerStep, hg, unitRegions, scanOneRegion_calls]
  · simp only [scanScannerStep, hg, if_neg, Bool.false_eq_true, unitRegions,
      if_false]
    induction regions generalizing st with
    | nil => simp
    | cons r rs ih =>
        simp [List.foldl_cons, ih, scanOneRegion_calls]

theorem scanScannerStep_errors (f : Scanner → String → ScanCallResult)
    (regions : List String) (id nm : String) (st : AccountScanState)
    (sc : Scanner) :
    (scanScannerStep regions f id nm st sc).errors
      = st.errors
        ++ (unitRegions regions sc).flatMap (fun r => unitError f id nm (sc, r)) := by
  by_cases hg : sc.is_global
  · simp [scanScannerStep, hg, unitRegions, scanOneRegion_errors]
  · simp only [scanScannerStep, hg, if_neg, Bool.false_eq_true, unitRegions,
      if_false]
    induction regions generalizing st with
    | nil => simp
    | cons r rs ih =>
        simp [List.foldl_cons, ih, scanOneRegion_errors]

theorem scanScannerStep_lookup (f : Scanner → String → ScanCallResult)
    (regions : List String) (id nm : String) (st : AccountScanState)
    (sc : Scanner) (k : String) :
    lookupList (scanScannerStep regions f id nm st sc).resources_by_scanner k
      = lookupList st.resources_by_scanner k
        ++ (if sc.sheet_name = k
            then (unitRegions regions sc).flatMap (fun r => (f sc r).okRecords)
            else []) := by
  by_cases hg : sc.is_global
  · simp [scanScannerStep, hg, unitRegions, scanOneRegion_lookup]
  · simp only [scanScannerStep, hg, if_neg, Bool.false_eq_true, unitRegions,
      if_false]
    induction regions generalizing st with
    | nil => simp
    | cons r rs ih =>
        simp [List.foldl_cons, ih, scanOneRegion_lookup, List.flatMap_cons]
        split <;> simp

theorem scannersFold_calls (f : Scanner → String → ScanCallResult)
    (regions : List String) (id nm : String) (scanners : List Scanner)
    (st : AccountScanState) :
    (scanners.foldl (scanScannerStep regions f id nm) st).calls
      = st.calls ++ scanUnits scanners regions := by
  induction scanners generalizing st with
  | nil => simp [scanUnits]
  | cons sc rest ih =>
      simp [List.foldl_cons, ih, scanScannerStep_calls, scanUnits,
        List.flatMap_cons]

theorem scannersFold_errors (f : Scanner → String → ScanCallResult)
    (regions : List String) (id nm : String) (scanners : List Scanner)
    (st : AccountScanState) :
    (scanners.foldl (scanScannerStep regions f id nm) st).errors
      = st.errors ++ (scanUnits scanners regions).flatMap (unitError f id nm) := by
  induction scanners generalizing st with
  | nil => simp [scanUnits]
  | cons sc rest ih =>
      simp [List.foldl_cons, ih, scanScannerStep_errors, scanUnits,
        List.flatMap_cons, List.flatMap_append, List.flatMap_map]

theorem scannersFold_lookup (f : Scanner → String → ScanCallResult)
    (regions : List String) (id nm : String) (scanners : List Scanner)
    (st : AccountScanState) (k : String) :
    lookupList (scanners.foldl (scanScannerStep regions f id nm) st).resources_by_scanner k
      = lookupList st.resources_by_scanner k
        ++ scanners.flatMap (fun sc =>
            if sc.sheet_name = k
            then (unitRegions regions sc).flatMap (fun r => (f sc r).okRecords)
            else []) := by
  induction scanners generalizing st with
  | nil => simp
  | cons sc rest ih =>
      simp [List.foldl_cons, ih, scanScannerStep_lookup, List.flatMap_cons]

theorem scanAccount_calls (scanners : List Scanner) (regions : List String)
    (f : Scanner → String → ScanCallResult) (id nm : String) :
    (scanAccount scanners regions f id nm).calls = scanUnits scanners regions := by
  simpa using scannersFold_calls f regions id nm scanners ⟨[], [], []⟩

theorem scanAccount_errors (scanners : List Scanner) (regions : List String)
    (f : Scanner → String → ScanCallResult) (id nm : String) :
    (scanAccount scanners regions f id nm).errors
      = (scanUnits scanners regions).flatMap (unitError f id nm) := by
  simpa using scannersFold_errors f regions id nm scanners ⟨[], [], []⟩

theorem scanAccount_lookup (scanners : List Scanner) (regions : List String)
    (f : Scanner → String → ScanCallResult) (id nm : String) (k : String) :
    lookupList (scanAccount scanners regions f id nm).resources_by_scanner k
      = scanners.flatMap (fun sc =>
          if sc.sheet_name = k
          then (unitRegions regions sc).flatMap (fun r => (f sc r).okRecords)
          else []) := by
  simpa using scannersFold_lookup f regions id nm scanners ⟨[], [], []⟩ k

/-! ### Structural lemmas: result merging and the `as_completed` loop -/

theorem resultsContains_resultsExtend (m : List (String × ScanResultEntry))
    (k x : String) (v : List ResourceRecord) :
    resultsContains (resultsExtend m k v) x = resultsContains m x := by
  induction m with
  | nil => rfl
  | cons kv rest ih =>
      obtain ⟨k0, e⟩ := kv
      by_cases h : k0 = k <;> simp [resultsExtend, resultsContains, h] at ih ⊢
      rw [ih]

theorem resultsRecords_resultsExtend (m : List (String × ScanResultEntry))
    (k x : String) (v : List ResourceRecord) :
    resultsRecords (resultsExtend m k v) x
      = resultsRecords m x
        ++ (if k = x then (if resultsContains m k then v else []) else []) := by
  induction m with
  | nil =>
      by_cases h : k = x <;> simp [resultsExtend, resultsRecords, resultsContains, h]
  | cons kv rest ih =>
      obtain ⟨k0, e⟩ := kv
      by_cases h : k0 = k
      · subst h
        by_cases h2 : k0 = x
        · subst h2
          simp [resultsExtend, resultsRecords, resultsContains]
        · simp [resultsExtend, resultsRecords, resultsContains, h2]
      · have hcont : resultsContains ((k0, e) :: rest) k = resultsContains rest k := by
          simp [resultsContains, h]
        rw [hcont]
        by_cases h2 : k0 = x
        · subst h2
          have hkx : ¬ k = k0 := fun hh => h hh.symm
          simp [resultsExtend, resultsRecords, h, hkx]
        · simp only [resultsExtend, if_neg h, resultsRecords, if_neg h2]
          exact ih

theorem resultsContains_mergeResources (m : List (String × ScanResultEntry))
    (d : List (String × List ResourceRecord)) (x : String) :
    resultsContains (mergeResources m d) x = resultsContains m x := by
  induction d generalizing m with
  | nil => rfl
  | cons kv rest ih =>
      simp only [mergeResources, List.foldl_cons] at ih ⊢
      rw [ih, resultsContains_resultsExtend]

theorem resultsRecords_mergeResources (m : List (String × ScanResultEntry))
    (d : List (String × List ResourceRecord)) (x : String) :
    resultsRecords (mergeResources m d) x
      = resultsRecords m x
        ++ (if resultsContains m x then lookupAll d x else []) := by
  induction d generalizing m with
  | nil => simp [mergeResources, lookupAll]
  | cons kv rest ih =>
      obtain ⟨k, v⟩ := kv
      simp only [mergeResources, List.foldl_cons] at ih ⊢
      rw [ih, resultsRecords_resultsExtend, resultsContains_resultsExtend,
        lookupAll_cons]
      by_cases hx : resultsContains m x
      · by_cases hk : k = x
        · subst hk
          simp [hx]
        · simp [hx, hk]
      · by_cases hk : k = x
        · subst hk
          simp [hx]
        · simp [hx, hk]

theorem orgFold_accounts_scanned (task : String × String → TaskOutcome)
    (arrival : List (String × String)) (st0 : OrgState) :
    (arrival.foldl (fun st a => processOutcome st a (task a)) st0).accounts_scanned
      = st0.accounts_scanned + arrival.countP (fun a => (task a).isOk) := by
  induction arrival generalizing st0 with
  | nil => simp
  | cons a rest ih =>
      rw [List.foldl_cons, ih, List.countP_cons]
      cases h : task a with
      | ok r => simp [processOutcome, TaskOutcome.isOk, h, Nat.add_assoc,
          Nat.add_comm]
      | exn c msg => simp [processOutcome, TaskOutcome.isOk, h]

theorem orgFold_all_errors (task : String × String → TaskOutcome)
    (arrival : List (String × String)) (st0 : OrgState) :
    (arrival.foldl (fun st a => processOutcome st a (task a)) st0).all_errors
      = st0.all_errors ++ arrival.flatMap (fun a => taskErrors a (task a)) := by
  induction arrival generalizing st0 with
  | nil => simp
  | cons a rest ih =>
      rw [List.foldl_cons, ih, List.flatMap_cons]
      cases h : task a with
      | ok r => simp [processOutcome, taskErrors, h]
      | exn c msg => simp [processOutcome, taskErrors, h]

theorem orgFold_contains (task : String × String → TaskOutcome)
    (arrival : List (String × String)) (st0 : OrgState) (x : String) :
    resultsContains
        (arrival.foldl (fun st a => processOutcome st a (task a)) st0).results x
      = resultsContains st0.results x := by
  induction arrival generalizing st0 with
  | nil => rfl
  | cons a rest ih =>
      rw [List.foldl_cons, ih]
      cases h : task a with
      | ok r => simp [processOutcome, resultsContains_mergeResources]
      | exn c msg => simp [processOutcome]

theorem orgFold_records (task : String × String → TaskOutcome)
    (arrival : List (String × String)) (st0 : OrgState) (x : String) :
    resultsRecords
        (arrival.foldl (fun st a => processOutcome st a (task a)) st0).results x
      = resultsRecords st0.results x
        ++ (if resultsContains st0.results x
            then arrival.flatMap (fun a => taskRecords (task a) x) else []) := by
  induction arrival generalizing st0 with
  | nil => simp
  | cons a rest ih =>
      rw [List.foldl_cons, ih, List.flatMap_cons]
      cases h : task a with
      | ok r =>
          simp only [processOutcome, resultsRecords_mergeResources,
            resultsContains_mergeResources, taskRecords]
          by_cases hx : resultsContains st0.results x <;> simp [hx]
      | exn c msg =>
          simp only [processOutcome, taskRecords]
          by_cases hx : resultsContains st0.results x <;> simp [hx]

theorem resultsRecords_of_all_empty (m : List (String × ScanResultEntry))
    (hm : ∀ kv ∈ m, kv.2.resources = []) (x : String) :
    resultsRecords m x = [] := by
  induction m with
  | nil => rfl
  | cons kv rest ih =>
      obtain ⟨k0, e⟩ := kv
      by_cases h : k0 = x
      · have : e.resources = [] := hm (k0, e) (by simp)
        simp [resultsRecords, h, this]
      · simp only [resultsRecords, if_neg h]
        exact ih (fun kv hkv => hm kv (List.mem_cons_of_mem _ hkv))

theorem dictInsert_all_empty (m : List (String × ScanResultEntry))
    (k : String) (v : ScanResultEntry) (hm : ∀ kv ∈ m, kv.2.resources = [])
    (hv : v.resources = []) :
    ∀ kv ∈ dictInsert m k v, kv.2.resources = [] := by
  induction m with
  | nil => simpa [dictInsert] using hv
  | cons kv0 rest ih =>
      obtain ⟨k0, e⟩ := kv0
      by_cases h : k0 = k
      · intro kv hkv
        simp only [dictInsert, if_pos h, List.mem_cons] at hkv
        rcases hkv with hkv | hkv
        · subst hkv
          exact hv
        · exact hm kv (List.mem_cons_of_mem _ hkv)
      · intro kv hkv
        simp only [dictInsert, if_neg h, List.mem_cons] at hkv
        rcases hkv with hkv | hkv
        · subst hkv
          exact hm (k0, e) (by simp)
        · exact ih (fun kv hkv => hm kv (List.mem_cons_of_mem _ hkv)) kv hkv

theorem initResults_all_empty (scanners : List Scanner) :
    ∀ kv ∈ initResults scanners, kv.2.resources = [] := by
  suffices h : ∀ m, (∀ kv ∈ m, kv.2.resources = []) →
      ∀ kv ∈ scanners.foldl
        (fun m sc => dictInsert m sc.sheet_name
          ⟨sc.resource_type, sc.sheet_name, [], [], sc.is_global⟩) m,
        kv.2.resources = [] by
    exact h [] (by simp)
  induction scanners with
  | nil => intro m hm; simpa using hm
  | cons sc rest ih =>
      intro m hm
      simp only [List.foldl_cons]
      exact ih _ (dictInsert_all_empty m sc.sheet_name _ hm rfl)

theorem resultsRecords_initResults (scanners : List Scanner) (x : String) :
    resultsRecords (initResults scanners) x = [] :=
  resultsRecords_of_all_empty _ (initResults_all_empty scanners) x

theorem resultsContains_dictInsert (m : List (String × ScanResultEntry))
    (k : String) (v : ScanResultEntry) (x : String) :
    resultsContains (dictInsert m k v) x
      = (resultsContains m x || decide (k = x)) := by
  induction m with
  | nil => simp [dictInsert, resultsContains]
  | cons kv rest ih =>
      obtain ⟨k0, e⟩ := kv
      by_cases h : k0 = k
      · subst h
        simp only [dictInsert, if_pos]
        by_cases h2 : k0 = x <;> simp [resultsContains, h2]
      · simp only [dictInsert, if_neg h]
        simp only [resultsContains] at ih
        by_cases h2 : k0 = x <;>
          simp [resultsContains, h2, ih, Bool.or_assoc]

theorem resultsContains_initResults (scanners : List Scanner) (x : String) :
    resultsContains (initResults scanners) x
      = scanners.any (fun sc => sc.sheet_name = x) := by
  suffices h : ∀ m, resultsContains
      (scanners.foldl
        (fun m sc => dictInsert m sc.sheet_name
          ⟨sc.resource_type, sc.sheet_name, [], [], sc.is_global⟩) m) x
      = (resultsContains m x || scanners.any (fun sc => sc.sheet_name = x)) by
    simpa [resultsContains] using h []
  induction scanners with
  | nil => intro m; simp
  | cons sc rest ih =>
      intro m
      simp only [List.foldl_cons, List.any_cons]
      rw [ih, resultsContains_dictInsert, Bool.or_assoc]

/-! ### Further helper lemmas -/

theorem append_ne_empty_left (s t : String) (h : s ≠ "") : s ++ t ≠ "" := by
  intro hc
  apply h
  have hd : s.data ++ t.data = [] := congrArg String.data hc
  have hs : s.data = [] := (List.append_eq_nil.mp hd).1
  cases s
  cases t
  simp_all

theorem snd_scan_account_region_form (rt : String) (res : ScanCallResult)
    (a n r : String) :
    ∀ e ∈ (scan_account_region rt res a n r).2.toList,
      ∃ t, e = scanPrefix rt a n r ++ t := by
  intro e he
  cases res with
  | ok records => simp [scan_account_region] at he
  | clientError code message =>
      simp only [scan_account_region] at he
      by_cases hcode : code = "AccessDenied" ∨ code = "UnauthorizedAccess"
      · rw [if_pos hcode] at he
        simp at he
        exact ⟨"Access Denied", he⟩
      · rw [if_neg hcode] at he
        simp at he
        exact ⟨message, he⟩
  | exn message =>
      simp only [scan_account_region, Option.toList_some, List.mem_singleton] at he
      exact ⟨message, he⟩

theorem okRecords_of_not_isOk (res : ScanCallResult) (h : res.isOk = false) :
    res.okRecords = [] := by
  cases res with
  | ok records => simp [ScanCallResult.isOk] at h
  | clientError code message => rfl
  | exn message => rfl

theorem nodup_keys_scanOneRegion (f : Scanner → String → ScanCallResult)
    (id nm : String) (st : AccountScanState) (sc : Scanner) (r : String)
    (h : (keysOf st.resources_by_scanner).Nodup) :
    (keysOf (scanOneRegion f id nm st sc r).resources_by_scanner).Nodup :=
  nodup_keysOf_ddExtend _ _ _ h

theorem nodup_keys_scanScannerStep (f : Scanner → String → ScanCallResult)
    (regions : List String) (id nm : String) (st : AccountScanState)
    (sc : Scanner) (h : (keysOf st.resources_by_scanner).Nodup) :
    (keysOf (scanScannerStep regions f id nm st sc).resources_by_scanner).Nodup := by
  by_cases hg : sc.is_global
  · simp only [scanScannerStep, hg, if_pos]
    exact nodup_keys_scanOneRegion f id nm st sc regions.headI h
  · simp only [scanScannerStep, hg, Bool.false_eq_true, if_false]
    induction regions generalizing st with
    | nil => simpa using h
    | cons r rs ih =>
        simp only [List.foldl_cons]
        exact ih _ (nodup_keys_scanOneRegion f id nm st sc r h)

theorem scanAccount_nodup_keys (scanners : List Scanner) (regions : List String)
    (f : Scanner → String → ScanCallResult) (id nm : String) :
    (keysOf (scanAccount scanners regions f id nm).resources_by_scanner).Nodup := by
  suffices hgen : ∀ st : AccountScanState,
      (keysOf st.resources_by_scanner).Nodup →
      (keysOf (scanners.foldl (scanScannerStep regions f id nm) st).resources_by_scanner).Nodup by
    exact hgen ⟨[], [], []⟩ (by simp [keysOf])
  induction scanners with
  | nil => intro st h; simpa using h
  | cons sc rest ih =>
      intro st h
      simp only [List.foldl_cons]
      exact ih _ (nodup_keys_scanScannerStep f regions id nm st sc h)

theorem taskRecords_scanAccountTask (scanners : List Scanner)
    (regions : List String) (scanCall : String → Scanner → String → ScanCallResult)
    (a : String × String) (k : String) :
    taskRecords (scanAccountTask scanners regions scanCall a) k
      = scanners.flatMap (fun sc =>
          if sc.sheet_name = k
          then (unitRegions regions sc).flatMap (fun r => (scanCall a.1 sc r).okRecords)
          else []) := by
  simp only [taskRecords, scanAccountTask]
  rw [lookupAll_eq_lookupList _ _ (scanAccount_nodup_keys scanners regions (scanCall a.1) a.1 a.2)]
  exact scanAccount_lookup scanners regions (scanCall a.1) a.1 a.2 k

theorem length_flatMap_eq_sum {α β : Type} (l : List α) (f : α → List β) :
    (l.flatMap f).length = (l.map (fun x => (f x).length)).sum := by
  induction l with
  | nil => simp
  | cons x rest ih => simp [List.flatMap_cons, ih]

theorem flatMap_sheet_single (scanners : List Scanner) (sc : Scanner)
    (X : Scanner → List ResourceRecord)
    (hs : (scanners.map Scanner.sheet_name).Nodup) (hsc : sc ∈ scanners) :
    scanners.flatMap (fun s => if s.sheet_name = sc.sheet_name then X s else [])
      = X sc := by
  induction scanners with
  | nil => simp at hsc
  | cons s rest ih =>
      simp only [List.map_cons, List.nodup_cons] at hs
      rcases List.mem_cons.mp hsc with hh | hh
      · subst hh
        simp only [List.flatMap_cons, if_pos rfl]
        have hrest : rest.flatMap
            (fun s2 => if s2.sheet_name = sc.sheet_name then X s2 else []) = [] := by
          rw [List.flatMap_eq_nil_iff]
          intro s2 hs2
          have : s2.sheet_name ≠ sc.sheet_name := by
            intro hq
            exact hs.1 (hq ▸ List.mem_map_of_mem Scanner.sheet_name hs2)
          simp [this]
        rw [hrest, List.append_nil]
        simp
      · have hne : s.sheet_name ≠ sc.sheet_name := by
          intro hq
          exact hs.1 (hq.symm ▸ List.mem_map_of_mem Scanner.sheet_name hh)
        simp only [List.flatMap_cons, if_neg hne, List.nil_append]
        exact ih hs.2 hh

theorem sum_filter_isOk (rs : List String) (g : String → ScanCallResult) :
    ((rs.filter (fun r => (g r).isOk)).map (fun r => (g r).okRecords.length)).sum
      = (rs.map (fun r => (g r).okRecords.length)).sum := by
  induction rs with
  | nil => rfl
  | cons r rest ih =>
      by_cases h : (g r).isOk
      · simp [List.filter_cons, h, ih]
      · have hz : (g r).okRecords = [] :=
          okRecords_of_not_isOk (g r) (by simpa using h)
        simp [List.filter_cons, h, ih, hz]

theorem filter_flatMap_single {α β : Type} (l : List α) (a : α)
    (g : α → List β) (pr : β → Bool) (hmem : a ∈ l) (hnd : l.Nodup)
    (h2 : ∀ p ∈ l, p ≠ a → (g p).filter pr = []) :
    (l.flatMap g).filter pr = (g a).filter pr := by
  induction l with
  | nil => simp at hmem
  | cons x rest ih =>
      rw [List.flatMap_cons, List.filter_append]
      rw [List.nodup_cons] at hnd
      rcases List.mem_cons.mp hmem with hx | hx
      · subst hx
        have : (rest.flatMap g).filter pr = [] := by
          rw [List.filter_flatMap, List.flatMap_eq_nil_iff]
          intro p hp
          refine h2 p (List.mem_cons_of_mem _ hp) ?_
          intro hq
          subst hq
          exact hnd.1 hp
        rw [this, List.append_nil]
      · have hxa : x ≠ a := by
          intro hq
          subst hq
          exact hnd.1 hx
        have hx2 : (g x).filter pr = [] := h2 x (List.mem_cons_self x rest) hxa
        rw [hx2, List.nil_append]
        exact ih hx hnd.2 (fun p hp hpa => h2 p (List.mem_cons_of_mem _ hp) hpa)

theorem orgFold_results_congr (task : String × String → TaskOutcome)
    (arrival : List (String × String)) (st0 st1 : OrgState)
    (h : st0.results = st1.results) :
    (arrival.foldl (fun st a => processOutcome st a (task a)) st0).results
      = (arrival.foldl (fun st a => processOutcome st a (task a)) st1).results := by
  induction arrival generalizing st0 st1 with
  | nil => simpa using h
  | cons a rest ih =>
      simp only [List.foldl_cons]
      refine ih _ _ ?_
      cases ho : task a with
      | ok r => simp [processOutcome, h]
      | exn c msg => simp [processOutcome, h]

theorem orgFold_accounts_congr (task : String × String → TaskOutcome)
    (arrival : List (String × String)) (st0 st1 : OrgState)
    (h : st0.accounts_scanned = st1.accounts_scanned) :
    (arrival.foldl (fun st a => processOutcome st a (task a)) st0).accounts_scanned
      = (arrival.foldl (fun st a => processOutcome st a (task a)) st1).accounts_scanned := by
  rw [orgFold_accounts_scanned, orgFold_accounts_scanned, h]

theorem mem_scanUnits (scanners : List Scanner) (regions : List String)
    (u : Scanner × String) (h : u ∈ scanUnits scanners regions) :
    u.1 ∈ scanners ∧ u.2 ∈ unitRegions regions u.1 := by
  simp only [scanUnits, List.mem_flatMap, List.mem_map] at h
  obtain ⟨sc, hsc, r, hr, hu⟩ := h
  subst hu
  exact ⟨hsc, hr⟩

/-! ### Convenient unfoldings of the non-fatal `scan_organization` run -/

theorem scanOrganization_ok_state (accounts : List (String × String))
    (bl : List String) (scanners : List Scanner)
    (credsOf : String → Option Credentials)
    (task : String × String → TaskOutcome) (arrival : List (String × String)) :
    (scanOrganization true (.ok accounts) bl scanners credsOf task arrival).state
      = arrival.foldl (fun st a => processOutcome st a (task a))
          ⟨initResults scanners, credErrors credsOf (filter_accounts bl accounts), 0⟩ := rfl

theorem scanOrganization_ok_scan_calls (accounts : List (String × String))
    (bl : List String) (scanners : List Scanner)
    (credsOf : String → Option Credentials)
    (task : String × String → TaskOutcome) (arrival : List (String × String)) :
    (scanOrganization true (.ok accounts) bl scanners credsOf task arrival).scan_calls
      = arrival.flatMap
          (fun a => (task a).callLog.map (fun c => (a.1, c.1, c.2))) := rfl

theorem scanOrganization_ok_cred_calls (accounts : List (String × String))
    (bl : List String) (scanners : List Scanner)
    (credsOf : String → Option Credentials)
    (task : String × String → TaskOutcome) (arrival : List (String × String)) :
    (scanOrganization true (.ok accounts) bl scanners credsOf task arrival).cred_calls
      = (filter_accounts bl accounts).map Prod.fst := rfl

/-! ### The claims -/

/-- C8: for every account, credential delegation returns either a credentials
dict with all three fields populated from the STS response, or `None`; every
`ClientError` path (access denied or any other client error) returns `None`
rather than raising, and a returned credentials value is never partially
filled — it always comes from a complete STS response. -/
theorem claim_C8_credentials_all_or_nothing :
    (∀ akid sak stok, get_account_credentials (.ok akid sak stok)
        = some ⟨akid, sak, stok⟩) ∧
    (∀ code msg, get_account_credentials (.clientError code msg) = none) ∧
    (∀ r c, get_account_credentials r = some c →
      r = .ok c.aws_access_key_id c.aws_secret_access_key c.aws_session_token) := by
  refine ⟨fun _ _ _ => rfl, fun _ _ => rfl, ?_⟩
  intro r c h
  cases r with
  | ok a s t =>
      simp only [get_account_credentials, Option.some.injEq] at h
      rw [← h]
  | clientError code msg => simp [get_account_credentials] at h

/-- Witness for C8 at concrete inputs: a successful STS response yields the
fully populated dict, both client-error codes yield `None`. -/
theorem claim_C8_witness :
    get_account_credentials (.ok "AKIA1" "SECRET1" "TOKEN1")
        = some ⟨"AKIA1", "SECRET1", "TOKEN1"⟩ ∧
    get_account_credentials (.clientError "AccessDenied" "denied") = none ∧
    get_account_credentials (.clientError "Throttling" "slow down") = none ∧
    (StsAssumeRole.ok "AKIA1" "SECRET1" "TOKEN1")
      = .ok ("AKIA1" : String) "SECRET1" "TOKEN1" :=
  ⟨claim_C8_credentials_all_or_nothing.1 "AKIA1" "SECRET1" "TOKEN1",
   claim_C8_credentials_all_or_nothing.2.1 "AccessDenied" "denied",
   claim_C8_credentials_all_or_nothing.2.1 "Throttling" "slow down",
   claim_C8_credentials_all_or_nothing.2.2 (.ok "AKIA1" "SECRET1" "TOKEN1")
     ⟨"AKIA1", "SECRET1", "TOKEN1"⟩ rfl⟩

/-- C2: `scan_account_region` never propagates an exception: a successful
scan yields exactly the scan's records with no error; a raising scan (client
error or any other exception) yields the empty record list — never a
partially populated one — together with a non-empty error string carrying
the resource type, account id, account name and region. -/
theorem claim_C2_scan_account_region_isolation (rt a n r : String)
    (res : ScanCallResult) :
    (res.isOk = true →
      scan_account_region rt res a n r = (res.okRecords, none)) ∧
    (res.isOk = false →
      (scan_account_region rt res a n r).1 = [] ∧
      ∃ t, (scan_account_region rt res a n r).2 = some (scanPrefix rt a n r ++ t)
        ∧ scanPrefix rt a n r ++ t ≠ "") := by
  constructor
  · intro h
    cases res with
    | ok records => rfl
    | clientError code message => simp [ScanCallResult.isOk] at h
    | exn message => simp [ScanCallResult.isOk] at h
  · intro h
    cases res with
    | ok records => simp [ScanCallResult.isOk] at h
    | clientError code message =>
        refine ⟨by rw [fst_scan_account_region]; rfl, ?_⟩
        by_cases hcode : code = "AccessDenied" ∨ code = "UnauthorizedAccess"
        · exact ⟨"Access Denied", by simp [scan_account_region, hcode],
            append_ne_empty_left _ _ (scanPrefix_ne_empty rt a n r)⟩
        · exact ⟨message, by simp [scan_account_region, hcode],
            append_ne_empty_left _ _ (scanPrefix_ne_empty rt a n r)⟩
    | exn message =>
        exact ⟨rfl, message, rfl,
          append_ne_empty_left _ _ (scanPrefix_ne_empty rt a n r)⟩

/-- Witness for C2 at a concrete raising scan. -/
theorem claim_C2_witness :
    (ScanCallResult.exn "read timeout").isOk = false ∧
    ((scan_account_region "EC2 Instance" (.exn "read timeout") "111122223333"
        "dev-account" "us-east-1").1 = [] ∧
     ∃ t, (scan_account_region "EC2 Instance" (.exn "read timeout") "111122223333"
        "dev-account" "us-east-1").2
          = some (scanPrefix "EC2 Instance" "111122223333" "dev-account" "us-east-1" ++ t)
       ∧ scanPrefix "EC2 Instance" "111122223333" "dev-account" "us-east-1" ++ t ≠ "") :=
  ⟨rfl, (claim_C2_scan_account_region_isolation "EC2 Instance" "111122223333"
      "dev-account" "us-east-1" (.exn "read timeout")).2 rfl⟩

theorem submissionLoop_no_raise (rOf : String → StsAssumeRole)
    (accounts : List (String × String)) :
    submissionLoop (fun id => .returns (rOf id)) accounts
      = ⟨accounts.map Prod.fst,
         credErrors (fun id => get_account_credentials (rOf id)) accounts,
         submittedAccounts (fun id => get_account_credentials (rOf id)) accounts,
         none⟩ := by
  induction accounts with
  | nil => rfl
  | cons a rest ih =>
      simp only [submissionLoop, get_account_credentials_call]
      cases hc : get_account_credentials (rOf a.1) with
      | none =>
          simp [ih, credErrors, submittedAccounts, List.filterMap_cons,
            List.filter_cons, hc]
      | some c =>
          simp [ih, credErrors, submittedAccounts, List.filterMap_cons,
            List.filter_cons, hc]

/-- On runs in which no delegation call raises, the full model agrees with
`scanOrganization` — the approved claims about `scanOrganization` are about
exactly this restriction of the code's behaviour. -/
theorem scanOrganizationFull_no_raise (verify_ok : Bool)
    (listed : ListAccountsResult) (bl : List String) (scanners : List Scanner)
    (rOf : String → StsAssumeRole) (task : String × String → TaskOutcome)
    (arrival : List (String × String)) :
    scanOrganizationFull verify_ok listed bl scanners
        (fun id => .returns (rOf id)) task arrival
      = scanOrganization verify_ok listed bl scanners
          (fun id => get_account_credentials (rOf id)) task arrival := by
  cases verify_ok with
  | false => rfl
  | true =>
      cases listed with
      | clientError msg => rfl
      | ok all_accounts =>
          simp only [scanOrganizationFull, scanOrganization,
            submissionLoop_no_raise]

/-- C6: the claim names verification failure and listing failure as the only
fatal paths, and the code indeed exits 1 on each with zero credential and
scan calls (first two conjuncts).  But the third clause — every other
failure never terminates the run — does not hold of the code:
`get_account_credentials` catches only `ClientError` (`aws_auth.py` lines
109-115), so an `sts.assume_role` call that raises any other exception (for
example a botocore connect timeout) propagates through the unguarded
submission loop (`main.py` line 157) to `run`'s generic handler (`main.py`
lines 320-323) and the process exits 1 — a third fatal path, with nothing
merged (third and fourth conjuncts, at a concrete failing input).  The same
delegation failure surfaced as a `ClientError` instead lets the run
complete (last conjunct).  The spec (§4.1, §7) makes every delegation
failure non-fatal, so the narrow `except ClientError` is the slip. -/
theorem claim_C6_third_fatal_path :
    (∀ (listed : ListAccountsResult) (bl : List String)
      (scanners : List Scanner) (credsOfCall : String → StsAssumeRoleCall)
      (task : String × String → TaskOutcome) (arrival : List (String × String)),
      scanOrganizationFull false listed bl scanners credsOfCall task arrival
        = ⟨some 1, false, [], [], ⟨[], [], 0⟩⟩) ∧
    (∀ (msg : String) (bl : List String)
      (scanners : List Scanner) (credsOfCall : String → StsAssumeRoleCall)
      (task : String × String → TaskOutcome) (arrival : List (String × String)),
      scanOrganizationFull true (.clientError msg) bl scanners credsOfCall
          task arrival
        = ⟨some 1, true, [], [], ⟨[], [], 0⟩⟩) ∧
    (scanOrganizationFull true (.ok [("1", "one"), ("2", "two")]) [] []
        (fun _ => .raises "Connect timeout on endpoint URL")
        (fun _ => .ok ⟨[], [], []⟩) []).exit_code = some 1 ∧
    (scanOrganizationFull true (.ok [("1", "one"), ("2", "two")]) [] []
        (fun _ => .raises "Connect timeout on endpoint URL")
        (fun _ => .ok ⟨[], [], []⟩) []).state.accounts_scanned = 0 ∧
    (scanOrganizationFull true (.ok [("1", "one"), ("2", "two")]) [] []
        (fun _ => .returns (.clientError "ConnectTimeoutError" "Connect timeout"))
        (fun _ => .ok ⟨[], [], []⟩) []).exit_code = none :=
  ⟨fun _ _ _ _ _ _ => rfl, fun _ _ _ _ _ _ => rfl, rfl, rfl, rfl⟩

/-- Counterexample to C7 as stated: the merge appends each arriving
outcome's records, so two different arrival orders of the same outcome set
give the same records in a different sequence — the per-scanner record
lists are not identical, only permutations of each other. -/
theorem claim_C7_counterexample :
    submittedAccounts (fun _ => some ⟨"k", "s", "t"⟩)
        (filter_accounts [] [("1", "one"), ("2", "two")])
      = [("1", "one"), ("2", "two")] ∧
    List.Perm [(("1" : String), ("one" : String)), ("2", "two")]
      [("2", "two"), ("1", "one")] ∧
    resultsRecords (scanOrganization true (.ok [("1", "one"), ("2", "two")]) []
        [⟨"S", "S", false⟩] (fun _ => some ⟨"k", "s", "t"⟩)
        (scanAccountTask [⟨"S", "S", false⟩] ["r"]
          (fun id _ _ => .ok [[("Account ID", id)]]))
        [("1", "one"), ("2", "two")]).state.results "S"
      ≠ resultsRecords (scanOrganization true (.ok [("1", "one"), ("2", "two")]) []
        [⟨"S", "S", false⟩] (fun _ => some ⟨"k", "s", "t"⟩)
        (scanAccountTask [⟨"S", "S", false⟩] ["r"]
          (fun id _ _ => .ok [[("Account ID", id)]]))
        [("2", "two"), ("1", "one")]).state.results "S" := by
  refine ⟨by decide, by decide, by decide⟩

/-- C7 amended: feeding the same set of outcomes in any permutation of
arrival order yields the same `accounts_scanned`, a permutation of the
failure list, and for every sheet a permutation (same multiset, not
necessarily the same sequence) of the per-scanner record list. -/
theorem claim_C7_merge_commutative_up_to_perm (accounts : List (String × String))
    (bl : List String) (scanners : List Scanner)
    (credsOf : String → Option Credentials)
    (task : String × String → TaskOutcome)
    (arrival1 arrival2 : List (String × String)) (hp : arrival1.Perm arrival2) :
    (scanOrganization true (.ok accounts) bl scanners credsOf task arrival1).state.accounts_scanned
      = (scanOrganization true (.ok accounts) bl scanners credsOf task arrival2).state.accounts_scanned ∧
    List.Perm
      (scanOrganization true (.ok accounts) bl scanners credsOf task arrival1).state.all_errors
      (scanOrganization true (.ok accounts) bl scanners credsOf task arrival2).state.all_errors ∧
    ∀ k, List.Perm
      (resultsRecords (scanOrganization true (.ok accounts) bl scanners credsOf task arrival1).state.results k)
      (resultsRecords (scanOrganization true (.ok accounts) bl scanners credsOf task arrival2).state.results k) := by
  rw [scanOrganization_ok_state, scanOrganization_ok_state]
  refine ⟨?_, ?_, ?_⟩
  · rw [orgFold_accounts_scanned, orgFold_accounts_scanned,
      hp.countP_eq (fun a => (task a).isOk)]
  · rw [orgFold_all_errors, orgFold_all_errors]
    exact List.Perm.append_left _
      (List.Perm.flatMap_right (fun a => taskErrors a (task a)) hp)
  · intro k
    rw [orgFold_records, orgFold_records]
    by_cases hc : resultsContains
        (⟨initResults scanners, credErrors credsOf (filter_accounts bl accounts), 0⟩ : OrgState).results k
    · simp only [hc, if_pos]
      exact List.Perm.append_left _
        (List.Perm.flatMap_right (fun a => taskRecords (task a) k) hp)
    · simp only [hc]
      simp

/-- Witness for C7's amended theorem at a concrete two-account run with the
arrival order reversed. -/
theorem claim_C7_amended_witness :
    List.Perm [(("1" : String), ("one" : String)), ("2", "two")]
      [("2", "two"), ("1", "one")] ∧
    ((scanOrganization true (.ok [("1", "one"), ("2", "two")]) []
        [⟨"S", "S", false⟩] (fun _ => some ⟨"k", "s", "t"⟩)
        (scanAccountTask [⟨"S", "S", false⟩] ["r"]
          (fun id _ _ => .ok [[("Account ID", id)]]))
        [("1", "one"), ("2", "two")]).state.accounts_scanned
      = (scanOrganization true (.ok [("1", "one"), ("2", "two")]) []
        [⟨"S", "S", false⟩] (fun _ => some ⟨"k", "s", "t"⟩)
        (scanAccountTask [⟨"S", "S", false⟩] ["r"]
          (fun id _ _ => .ok [[("Account ID", id)]]))
        [("2", "two"), ("1", "one")]).state.accounts_scanned ∧
    List.Perm
      (scanOrganization true (.ok [("1", "one"), ("2", "two")]) []
        [⟨"S", "S", false⟩] (fun _ => some ⟨"k", "s", "t"⟩)
        (scanAccountTask [⟨"S", "S", false⟩] ["r"]
          (fun id _ _ => .ok [[("Account ID", id)]]))
        [("1", "one"), ("2", "two")]).state.all_errors
      (scanOrganization true (.ok [("1", "one"), ("2", "two")]) []
        [⟨"S", "S", false⟩] (fun _ => some ⟨"k", "s", "t"⟩)
        (scanAccountTask [⟨"S", "S", false⟩] ["r"]
          (fun id _ _ => .ok [[("Account ID", id)]]))
        [("2", "two"), ("1", "one")]).state.all_errors ∧
    ∀ k, List.Perm
      (resultsRecords (scanOrganization true (.ok [("1", "one"), ("2", "two")]) []
        [⟨"S", "S", false⟩] (fun _ => some ⟨"k", "s", "t"⟩)
        (scanAccountTask [⟨"S", "S", false⟩] ["r"]
          (fun id _ _ => .ok [[("Account ID", id)]]))
        [("1", "one"), ("2", "two")]).state.results k)
      (resultsRecords (scanOrganization true (.ok [("1", "one"), ("2", "two")]) []
        [⟨"S", "S", false⟩] (fun _ => some ⟨"k", "s", "t"⟩)
        (scanAccountTask [⟨"S", "S", false⟩] ["r"]
          (fun id _ _ => .ok [[("Account ID", id)]]))
        [("2", "two"), ("1", "one")]).state.results k)) :=
  ⟨by decide,
   claim_C7_merge_commutative_up_to_perm [("1", "one"), ("2", "two")] []
     [⟨"S", "S", false⟩] (fun _ => some ⟨"k", "s", "t"⟩)
     (scanAccountTask [⟨"S", "S", false⟩] ["r"]
       (fun id _ _ => .ok [[("Account ID", id)]]))
     [("1", "one"), ("2", "two")] [("2", "two"), ("1", "one")] (by decide)⟩

/-- C9: `accounts_scanned` counts exactly the submitted accounts (credentials
obtained) whose scan task completed without raising; a raising task
contributes exactly one `"Unexpected error scanning ..."` entry and no
records to any sheet; a normally-running `_scan_account` task always counts
as completed even if every individual scanner invocation inside it failed. -/
theorem claim_C9_accounts_scanned_semantics (bl : List String)
    (all_accounts : List (String × String)) (scanners : List Scanner)
    (credsOf : String → Option Credentials)
    (task : String × String → TaskOutcome) (arrival : List (String × String))
    (hArr : arrival.Perm (submittedAccounts credsOf (filter_accounts bl all_accounts))) :
    (scanOrganization true (.ok all_accounts) bl scanners credsOf task arrival).state.accounts_scanned
      = (submittedAccounts credsOf (filter_accounts bl all_accounts)).countP
          (fun a => (task a).isOk) ∧
    (scanOrganization true (.ok all_accounts) bl scanners credsOf task arrival).state.all_errors
      = credErrors credsOf (filter_accounts bl all_accounts)
        ++ arrival.flatMap (fun a => taskErrors a (task a)) ∧
    (∀ k, resultsContains (initResults scanners) k = true →
      resultsRecords
        (scanOrganization true (.ok all_accounts) bl scanners credsOf task arrival).state.results k
        = arrival.flatMap (fun a => taskRecords (task a) k)) ∧
    (∀ p calls msg, taskErrors p (.exn calls msg) = [unexpectedScanMsg p msg]) ∧
    (∀ calls msg k, taskRecords (.exn calls msg) k = []) ∧
    (∀ regions scanCall p,
      (scanAccountTask scanners regions scanCall p).isOk = true) := by
  refine ⟨?_, ?_, ?_, fun _ _ _ => rfl, fun _ _ _ => rfl, fun _ _ _ => rfl⟩
  · rw [scanOrganization_ok_state, orgFold_accounts_scanned,
      hArr.countP_eq (fun a => (task a).isOk)]
    simp
  · rw [scanOrganization_ok_state, orgFold_all_errors]
  · intro k hk
    rw [scanOrganization_ok_state, orgFold_records]
    simp [resultsRecords_initResults, hk]

/-- Witness for C9 at a concrete run: two accounts, one of which fails
delegation, and the surviving account's task raises. -/
theorem claim_C9_witness :
    List.Perm [(("1" : String), ("one" : String))]
      (submittedAccounts (fun id => if id = "1" then some ⟨"k", "s", "t"⟩ else none)
        (filter_accounts [] [("1", "one"), ("2", "two")])) ∧
    ((scanOrganization true (.ok [("1", "one"), ("2", "two")]) [] []
        (fun id => if id = "1" then some ⟨"k", "s", "t"⟩ else none)
        (fun _ => .exn [] "boom") [("1", "one")]).state.accounts_scanned
      = (submittedAccounts (fun id => if id = "1" then some ⟨"k", "s", "t"⟩ else none)
          (filter_accounts [] [("1", "one"), ("2", "two")])).countP
            (fun a => (TaskOutcome.exn [] "boom").isOk) ∧
    (scanOrganization true (.ok [("1", "one"), ("2", "two")]) [] []
        (fun id => if id = "1" then some ⟨"k", "s", "t"⟩ else none)
        (fun _ => .exn [] "boom") [("1", "one")]).state.all_errors
      = credErrors (fun id => if id = "1" then some ⟨"k", "s", "t"⟩ else none)
          (filter_accounts [] [("1", "one"), ("2", "two")])
        ++ [("1", "one")].flatMap (fun a => taskErrors a (.exn [] "boom")) ∧
    (∀ k, resultsContains (initResults []) k = true →
      resultsRecords
        (scanOrganization true (.ok [("1", "one"), ("2", "two")]) [] []
          (fun id => if id = "1" then some ⟨"k", "s", "t"⟩ else none)
          (fun _ => .exn [] "boom") [("1", "one")]).state.results k
        = [("1", "one")].flatMap (fun a => taskRecords (.exn [] "boom") k)) ∧
    (∀ p calls msg, taskErrors p (.exn calls msg) = [unexpectedScanMsg p msg]) ∧
    (∀ calls msg k, taskRecords (.exn calls msg) k = []) ∧
    (∀ regions scanCall p,
      (scanAccountTask [] regions scanCall p).isOk = true)) :=
  ⟨by decide,
   claim_C9_accounts_scanned_semantics [] [("1", "one"), ("2", "two")] []
     (fun id => if id = "1" then some ⟨"k", "s", "t"⟩ else none)
     (fun _ => .exn [] "boom") [("1", "one")] (by decide)⟩

/-- C1: for every scanner, the length of its final merged record list equals
the sum, over every submitted account (credentials obtained, task completed)
and every successful invocation of that scanner for that account (one unit
for a global scanner, one per configured region otherwise), of the number of
records that invocation returned. -/
theorem claim_C1_merge_preserves_counts (bl : List String)
    (all_accounts : List (String × String)) (scanners : List Scanner)
    (regions : List String) (r0 : String) (rs : List String)
    (hreg : regions = r0 :: rs)
    (credsOf : String → Option Credentials)
    (scanCall : String → Scanner → String → ScanCallResult)
    (arrival : List (String × String)) (sc : Scanner)
    (hsheets : (scanners.map Scanner.sheet_name).Nodup)
    (hsc : sc ∈ scanners)
    (hArr : arrival.Perm (submittedAccounts credsOf (filter_accounts bl all_accounts))) :
    (resultsRecords (scanOrganization true (.ok all_accounts) bl scanners credsOf
        (scanAccountTask scanners regions scanCall) arrival).state.results
        sc.sheet_name).length
      = ((submittedAccounts credsOf (filter_accounts bl all_accounts)).map
          (fun a => (((unitRegions regions sc).filter
              (fun r => (scanCall a.1 sc r).isOk)).map
              (fun r => (scanCall a.1 sc r).okRecords.length)).sum)).sum := by
  have hcontains : resultsContains (initResults scanners) sc.sheet_name = true := by
    rw [resultsContains_initResults]
    exact List.any_eq_true.mpr ⟨sc, hsc, by simp⟩
  rw [scanOrganization_ok_state, orgFold_records]
  simp only [resultsRecords_initResults, hcontains, if_pos, List.nil_append]
  rw [length_flatMap_eq_sum]
  have hperm : (arrival.map
      (fun a => (taskRecords (scanAccountTask scanners regions scanCall a)
        sc.sheet_name).length)).Perm
      ((submittedAccounts credsOf (filter_accounts bl all_accounts)).map
        (fun a => (taskRecords (scanAccountTask scanners regions scanCall a)
          sc.sheet_name).length)) :=
    hArr.map _
  rw [hperm.sum_eq]
  have hpt : ∀ a : String × String,
      (taskRecords (scanAccountTask scanners regions scanCall a) sc.sheet_name).length
        = (((unitRegions regions sc).filter
            (fun r => (scanCall a.1 sc r).isOk)).map
            (fun r => (scanCall a.1 sc r).okRecords.length)).sum := by
    intro a
    rw [taskRecords_scanAccountTask,
      flatMap_sheet_single scanners sc _ hsheets hsc,
      length_flatMap_eq_sum, sum_filter_isOk]
  simp only [hpt]

/-- Witness for C1: one global and one regional scanner over two regions,
with one invocation failing, at a concrete two-account organization. -/
theorem claim_C1_witness :
    (["r1", "r2"] : List String) = "r1" :: ["r2"] ∧
    (([⟨"G", "GS", true⟩, ⟨"E", "ES", false⟩] : List Scanner).map
        Scanner.sheet_name).Nodup ∧
    (⟨"E", "ES", false⟩ : Scanner) ∈
      ([⟨"G", "GS", true⟩, ⟨"E", "ES", false⟩] : List Scanner) ∧
    List.Perm [(("1" : String), ("one" : String)), ("2", "two")]
      (submittedAccounts (fun _ => some ⟨"k", "s", "t"⟩)
        (filter_accounts [] [("1", "one"), ("2", "two")])) ∧
    (resultsRecords (scanOrganization true (.ok [("1", "one"), ("2", "two")]) []
        [⟨"G", "GS", true⟩, ⟨"E", "ES", false⟩] (fun _ => some ⟨"k", "s", "t"⟩)
        (scanAccountTask [⟨"G", "GS", true⟩, ⟨"E", "ES", false⟩] ["r1", "r2"]
          (fun id sc r =>
            if r = "r2" ∧ id = "2" then .exn "boom"
            else .ok [[("Account ID", id), ("Region", r)]]))
        [("1", "one"), ("2", "two")]).state.results
        (Scanner.sheet_name ⟨"E", "ES", false⟩)).length
      = ((submittedAccounts (fun _ => some ⟨"k", "s", "t"⟩)
          (filter_accounts [] [("1", "one"), ("2", "two")])).map
          (fun a => (((unitRegions ["r1", "r2"] ⟨"E", "ES", false⟩).filter
              (fun r => ((fun id sc r =>
                if r = "r2" ∧ id = "2" then ScanCallResult.exn "boom"
                else .ok [[("Account ID", id), ("Region", r)]]) a.1
                  (⟨"E", "ES", false⟩ : Scanner) r).isOk)).map
              (fun r => ((fun id sc r =>
                if r = "r2" ∧ id = "2" then ScanCallResult.exn "boom"
                else .ok [[("Account ID", id), ("Region", r)]]) a.1
                  (⟨"E", "ES", false⟩ : Scanner) r).okRecords.length)).sum)).sum :=
  ⟨rfl, by decide, by decide, by decide,
   claim_C1_merge_preserves_counts [] [("1", "one"), ("2", "two")]
     [⟨"G", "GS", true⟩, ⟨"E", "ES", false⟩] ["r1", "r2"] "r1" ["r2"] rfl
     (fun _ => some ⟨"k", "s", "t"⟩)
     (fun id sc r =>
       if r = "r2" ∧ id = "2" then .exn "boom"
       else .ok [[("Account ID", id), ("Region", r)]])
     [("1", "one"), ("2", "two")] ⟨"E", "ES", false⟩
     (by decide) (by decide) (by decide)⟩

/-- C10: within one account's scan the invocations are performed
sequentially in registry order (each regional scanner over the configured
regions in order), and the per-sheet record list the account scan returns is
exactly the in-order concatenation of that scanner's invocation results — a
deterministic function of those results. -/
theorem claim_C10_sequential_account_scan (scanners : List Scanner)
    (regions : List String) (r0 : String) (rs : List String)
    (hreg : regions = r0 :: rs)
    (f : Scanner → String → ScanCallResult) (id nm : String) (sc : Scanner)
    (hsheets : (scanners.map Scanner.sheet_name).Nodup) (hsc : sc ∈ scanners) :
    (scanAccount scanners regions f id nm).calls = scanUnits scanners regions ∧
    lookupList (scanAccount scanners regions f id nm).resources_by_scanner
        sc.sheet_name
      = (unitRegions regions sc).flatMap
          (fun r => (scan_account_region sc.resource_type (f sc r) id nm r).1) := by
  refine ⟨scanAccount_calls scanners regions f id nm, ?_⟩
  rw [scanAccount_lookup, flatMap_sheet_single scanners sc _ hsheets hsc]
  simp only [fst_scan_account_region]

/-- Witness for C10 with the full static registry over two regions. -/
theorem claim_C10_witness :
    (["us-east-1", "us-west-2"] : List String) = "us-east-1" :: ["us-west-2"] ∧
    (get_all_scanners.map Scanner.sheet_name).Nodup ∧
    (⟨"EC2 Instance", "EC2 Instances", false⟩ : Scanner) ∈ get_all_scanners ∧
    ((scanAccount get_all_scanners ["us-east-1", "us-west-2"]
        (fun _ _ => .ok [[("Resource ID", "x")]]) "1" "one").calls
      = scanUnits get_all_scanners ["us-east-1", "us-west-2"] ∧
    lookupList (scanAccount get_all_scanners ["us-east-1", "us-west-2"]
        (fun _ _ => .ok [[("Resource ID", "x")]]) "1" "one").resources_by_scanner
        (Scanner.sheet_name ⟨"EC2 Instance", "EC2 Instances", false⟩)
      = (unitRegions ["us-east-1", "us-west-2"]
          ⟨"EC2 Instance", "EC2 Instances", false⟩).flatMap
          (fun r => (scan_account_region
            (Scanner.resource_type ⟨"EC2 Instance", "EC2 Instances", false⟩)
            ((fun _ _ => ScanCallResult.ok [[("Resource ID", "x")]])
              (⟨"EC2 Instance", "EC2 Instances", false⟩ : Scanner) r)
            "1" "one" r).1)) :=
  ⟨rfl, by decide, by decide,
   claim_C10_sequential_account_scan get_all_scanners
     ["us-east-1", "us-west-2"] "us-east-1" ["us-west-2"] rfl
     (fun _ _ => .ok [[("Resource ID", "x")]]) "1" "one"
     ⟨"EC2 Instance", "EC2 Instances", false⟩ (by decide) (by decide)⟩

theorem scanUnits_filter_not_mem (scanners : List Scanner)
    (regions : List String) (sc : Scanner) (h : sc ∉ scanners) :
    (scanUnits scanners regions).filter (fun u => decide (u.1 = sc)) = [] := by
  refine List.filter_eq_nil_iff.mpr ?_
  intro u hu
  have hm := (mem_scanUnits scanners regions u hu).1
  simp only [decide_eq_true_eq]
  intro hq
  exact h (hq ▸ hm)

theorem scanUnits_filter_count_one (scanners : List Scanner)
    (regions : List String) (sc : Scanner) (h : scanners.count sc = 1) :
    (scanUnits scanners regions).filter (fun u => decide (u.1 = sc))
      = (unitRegions regions sc).map (fun r => (sc, r)) := by
  induction scanners with
  | nil => simp at h
  | cons s rest ih =>
      have hcons : scanUnits (s :: rest) regions
          = (unitRegions regions s).map (fun r => (s, r)) ++ scanUnits rest regions := by
        simp [scanUnits, List.flatMap_cons]
      rw [hcons, List.filter_append]
      by_cases hs : s = sc
      · subst hs
        have hz : rest.count s = 0 := by
          rw [List.count_cons_self] at h
          omega
        have hnm : s ∉ rest := by
          rw [← List.count_eq_zero]
          exact hz
        rw [scanUnits_filter_not_mem rest regions s hnm, List.append_nil,
          List.filter_map]
        have heq : ((fun u : Scanner × String => decide (u.1 = s))
            ∘ fun r : String => ((s : Scanner), r)) = fun _ => true := by
          funext r
          simp
        rw [heq, List.filter_true]
      · have hrest : rest.count sc = 1 := by
          have hne1 : ¬ s = sc := hs
          have hne2 : ¬ sc = s := fun hq => hs hq.symm
          rw [List.count_cons] at h
          simpa [hne1, hne2] using h
        rw [List.filter_map]
        have heq : ((fun u : Scanner × String => decide (u.1 = sc))
            ∘ fun r : String => ((s : Scanner), r)) = fun _ => false := by
          funext r
          simp [hs]
        rw [heq, List.filter_false, List.map_nil, List.nil_append]
        exact ih hrest

/-- The submitted-account list inherits duplicate-freedom of ids from the
organization account list. -/
theorem submitted_map_fst_nodup (bl : List String)
    (all_accounts : List (String × String))
    (credsOf : String → Option Credentials)
    (hid : (all_accounts.map Prod.fst).Nodup) :
    ((submittedAccounts credsOf (filter_accounts bl all_accounts)).map Prod.fst).Nodup := by
  refine hid.sublist ?_
  refine List.Sublist.map Prod.fst ?_
  exact ((filter_accounts bl all_accounts).filter_sublist).trans
    (all_accounts.filter_sublist)

/-- C4: for every account with valid credentials, a scanner occurring once
in the registry is invoked exactly once for that account with the first
configured region if it is global, and exactly once per configured region,
in order, otherwise — regardless of how many regions are configured. -/
theorem claim_C4_global_scanner_singularity (bl : List String)
    (all_accounts : List (String × String)) (scanners : List Scanner)
    (regions : List String) (r0 : String) (rs : List String)
    (hreg : regions = r0 :: rs)
    (credsOf : String → Option Credentials)
    (scanCall : String → Scanner → String → ScanCallResult)
    (arrival : List (String × String)) (a : String × String) (c : Credentials)
    (hid : (all_accounts.map Prod.fst).Nodup)
    (ha : a ∈ filter_accounts bl all_accounts)
    (hc : credsOf a.1 = some c)
    (hArr : arrival.Perm (submittedAccounts credsOf (filter_accounts bl all_accounts)))
    (sc : Scanner) (hsc : scanners.count sc = 1) :
    (scanOrganization true (.ok all_accounts) bl scanners credsOf
        (scanAccountTask scanners regions scanCall) arrival).scan_calls.filter
        (fun cll => decide (cll.1 = a.1) && decide (cll.2.1 = sc))
      = if sc.is_global then [(a.1, sc, r0)]
        else regions.map (fun r => (a.1, sc, r)) := by
  subst hreg
  have hsubn : ((submittedAccounts credsOf (filter_accounts bl all_accounts)).map
      Prod.fst).Nodup := submitted_map_fst_nodup bl all_accounts credsOf hid
  have harrfst : (arrival.map Prod.fst).Nodup :=
    ((hArr.map Prod.fst).nodup_iff).mpr hsubn
  have hamem : a ∈ arrival := by
    rw [hArr.mem_iff]
    refine List.mem_filter.mpr ⟨ha, ?_⟩
    simp [hc]
  have harrnd : arrival.Nodup := harrfst.of_map Prod.fst
  rw [scanOrganization_ok_scan_calls]
  have hlog : ∀ p : String × String,
      (scanAccountTask scanners (r0 :: rs) scanCall p).callLog
        = scanUnits scanners (r0 :: rs) := by
    intro p
    simp [scanAccountTask, TaskOutcome.callLog, scanAccount_calls]
  simp only [hlog]
  have hside : ∀ p ∈ arrival, p ≠ a →
      ((scanUnits scanners (r0 :: rs)).map
        (fun c2 => (p.1, c2.1, c2.2))).filter
        (fun cll => decide (cll.1 = a.1) && decide (cll.2.1 = sc)) = [] := by
    intro p hp hpa
    rw [List.filter_map]
    have hfalse : ((fun cll : String × Scanner × String =>
        decide (cll.1 = a.1) && decide (cll.2.1 = sc))
          ∘ fun c2 : Scanner × String => (p.1, c2.1, c2.2))
        = fun c2 => false && decide (c2.1 = sc) := by
      funext c2
      have : ¬ p.1 = a.1 := by
        intro hq
        exact hpa (List.inj_on_of_nodup_map harrfst hp hamem hq)
      simp [this]
    rw [hfalse]
    simp
  rw [filter_flatMap_single arrival a _ _ hamem harrnd hside]
  · rw [List.filter_map]
    have hpred : ((fun cll : String × Scanner × String =>
        decide (cll.1 = a.1) && decide (cll.2.1 = sc))
          ∘ fun c2 : Scanner × String => (a.1, c2.1, c2.2))
        = fun c2 : Scanner × String => decide (c2.1 = sc) := by
      funext c2
      simp
    rw [hpred, scanUnits_filter_count_one scanners (r0 :: rs) sc hsc,
      List.map_map]
    by_cases hg : sc.is_global
    · simp [unitRegions, hg, List.headI]
    · simp [unitRegions, hg]

/-- Witness for C4: a global scanner over two configured regions is invoked
exactly once, with the first region, at a concrete two-account run. -/
theorem claim_C4_witness :
    (["r1", "r2"] : List String) = "r1" :: ["r2"] ∧
    ((([("1", "one"), ("2", "two")] : List (String × String)).map Prod.fst).Nodup ∧
    (("1", "one") ∈ filter_accounts [] [("1", "one"), ("2", "two")]) ∧
    ((fun _ => some (⟨"k", "s", "t"⟩ : Credentials)) ("1" : String)
      = some ⟨"k", "s", "t"⟩) ∧
    List.Perm [(("1" : String), ("one" : String)), ("2", "two")]
      (submittedAccounts (fun _ => some ⟨"k", "s", "t"⟩)
        (filter_accounts [] [("1", "one"), ("2", "two")])) ∧
    ([⟨"G", "GS", true⟩, ⟨"E", "ES", false⟩] : List Scanner).count
      ⟨"G", "GS", true⟩ = 1) ∧
    (scanOrganization true (.ok [("1", "one"), ("2", "two")]) []
        [⟨"G", "GS", true⟩, ⟨"E", "ES", false⟩] (fun _ => some ⟨"k", "s", "t"⟩)
        (scanAccountTask [⟨"G", "GS", true⟩, ⟨"E", "ES", false⟩] ["r1", "r2"]
          (fun _ _ _ => .ok []))
        [("1", "one"), ("2", "two")]).scan_calls.filter
        (fun cll => decide (cll.1 = ("1", "one").1)
          && decide (cll.2.1 = (⟨"G", "GS", true⟩ : Scanner)))
      = if (⟨"G", "GS", true⟩ : Scanner).is_global then [(("1", "one").1, ⟨"G", "GS", true⟩, "r1")]
        else ["r1", "r2"].map (fun r => (("1", "one").1, ⟨"G", "GS", true⟩, r)) :=
  ⟨rfl, ⟨by decide, by decide, rfl, by decide, by decide⟩,
   claim_C4_global_scanner_singularity [] [("1", "one"), ("2", "two")]
     [⟨"G", "GS", true⟩, ⟨"E", "ES", false⟩] ["r1", "r2"] "r1" ["r2"] rfl
     (fun _ => some ⟨"k", "s", "t"⟩) (fun _ _ _ => .ok [])
     [("1", "one"), ("2", "two")] ("1", "one") ⟨"k", "s", "t"⟩
     (by decide) (by decide) rfl (by decide) ⟨"G", "GS", true⟩ (by decide)⟩

theorem mem_filter_accounts (bl : List String) (l : List (String × String))
    (p : String × String) :
    p ∈ filter_accounts bl l ↔ p ∈ l ∧ is_account_allowed bl p.1 = true := by
  simp [filter_accounts, List.mem_filter]

theorem credErrors_append (credsOf : String → Option Credentials)
    (l1 l2 : List (String × String)) :
    credErrors credsOf (l1 ++ l2)
      = credErrors credsOf l1 ++ credErrors credsOf l2 :=
  List.filterMap_append l1 l2 _

theorem mem_credErrors (credsOf : String → Option Credentials)
    (l : List (String × String)) (e : String) :
    e ∈ credErrors credsOf l
      ↔ ∃ p, p ∈ l ∧ credsOf p.1 = none ∧ e = credFailMsg p := by
  simp only [credErrors, List.mem_filterMap]
  constructor
  · rintro ⟨p, hp, hf⟩
    cases hcp : credsOf p.1 with
    | none =>
        rw [hcp] at hf
        simp only [Option.some.injEq] at hf
        exact ⟨p, hp, hcp, hf.symm⟩
    | some c =>
        rw [hcp] at hf
        simp at hf
  · rintro ⟨p, hp, hcp, he⟩
    refine ⟨p, hp, ?_⟩
    rw [hcp, he]

/-- C3: a credential-delegation failure for one account is isolated: the
submission loop records its failure message exactly once, the account is
never submitted (so no scan call carries its id), and the rest of the run —
merged results, `accounts_scanned`, and all other error entries — is
exactly what the run without that account would produce. -/
theorem claim_C3_delegation_failure_isolated (bl : List String)
    (all_accounts : List (String × String)) (scanners : List Scanner)
    (credsOf : String → Option Credentials)
    (task : String × String → TaskOutcome) (arrival : List (String × String))
    (a : String × String)
    (hid : (all_accounts.map Prod.fst).Nodup)
    (ha : a ∈ filter_accounts bl all_accounts)
    (hc : credsOf a.1 = none)
    (hmsg : ∀ p ∈ filter_accounts bl all_accounts,
      credFailMsg p = credFailMsg a → p = a)
    (hArr : arrival.Perm (submittedAccounts credsOf (filter_accounts bl all_accounts))) :
    (credErrors credsOf (filter_accounts bl all_accounts)).count (credFailMsg a) = 1 ∧
    (∀ p ∈ arrival, p.1 ≠ a.1) ∧
    (∀ cll ∈ (scanOrganization true (.ok all_accounts) bl scanners credsOf
        task arrival).scan_calls, cll.1 ≠ a.1) ∧
    (scanOrganization true (.ok all_accounts) bl scanners credsOf
        task arrival).state.results
      = (scanOrganization true (.ok (all_accounts.erase a)) bl scanners credsOf
          task arrival).state.results ∧
    (scanOrganization true (.ok all_accounts) bl scanners credsOf
        task arrival).state.accounts_scanned
      = (scanOrganization true (.ok (all_accounts.erase a)) bl scanners credsOf
          task arrival).state.accounts_scanned ∧
    List.Perm
      (scanOrganization true (.ok all_accounts) bl scanners credsOf
        task arrival).state.all_errors
      (credFailMsg a ::
        (scanOrganization true (.ok (all_accounts.erase a)) bl scanners credsOf
          task arrival).state.all_errors) := by
  have hmem2 : ∀ p ∈ arrival, p.1 ≠ a.1 := by
    intro p hp hq
    rw [hArr.mem_iff] at hp
    have hps := (List.mem_filter.mp hp).2
    rw [hq, hc] at hps
    simp at hps
  obtain ⟨u, v, huv⟩ := List.append_of_mem (List.mem_of_mem_filter ha)
  subst huv
  have hfst : (u.map Prod.fst ++ a.1 :: v.map Prod.fst).Nodup := by
    simpa using hid
  have hmid := List.nodup_middle.mp hfst
  rw [List.nodup_cons] at hmid
  have hanotu : a ∉ u := by
    intro hh
    exact hmid.1 (List.mem_append_left _ (List.mem_map_of_mem Prod.fst hh))
  have hanotv : a ∉ v := by
    intro hh
    exact hmid.1 (List.mem_append_right _ (List.mem_map_of_mem Prod.fst hh))
  have herase : (u ++ a :: v).erase a = u ++ v := by
    rw [List.erase_append_right _ hanotu, List.erase_cons_head]
  have hpa : is_account_allowed bl a.1 = true := (List.mem_filter.mp ha).2
  have hfilters : filter_accounts bl (u ++ a :: v)
      = filter_accounts bl u ++ a :: filter_accounts bl v := by
    simp [filter_accounts, List.filter_append, List.filter_cons, hpa]
  have hfilters2 : filter_accounts bl (u ++ v)
      = filter_accounts bl u ++ filter_accounts bl v := by
    simp only [filter_accounts, List.filter_append]
  have hcredBig : credErrors credsOf (filter_accounts bl u ++ a :: filter_accounts bl v)
      = credErrors credsOf (filter_accounts bl u)
        ++ credFailMsg a :: credErrors credsOf (filter_accounts bl v) := by
    rw [show (filter_accounts bl u ++ a :: filter_accounts bl v)
        = filter_accounts bl u ++ ([a] ++ filter_accounts bl v) from by simp,
      credErrors_append, credErrors_append]
    simp [credErrors, List.filterMap_cons, hc]
  have hcount0 : ∀ w : List (String × String), a ∉ w →
      (∀ p ∈ filter_accounts bl w, p ∈ filter_accounts bl (u ++ a :: v)) →
      (credErrors credsOf (filter_accounts bl w)).count (credFailMsg a) = 0 := by
    intro w hw hsub
    rw [List.count_eq_zero]
    intro hmem
    obtain ⟨p, hp, hpc, hpe⟩ := (mem_credErrors credsOf _ _).mp hmem
    have hpeq : p = a := hmsg p (hsub p hp) hpe.symm
    subst hpeq
    exact hw (List.mem_of_mem_filter hp)
  refine ⟨?_, hmem2, ?_, ?_, ?_, ?_⟩
  · rw [hfilters, hcredBig, List.count_append, List.count_cons_self]
    have hcu : (credErrors credsOf (filter_accounts bl u)).count (credFailMsg a) = 0 :=
      hcount0 u hanotu (fun p hp => by rw [hfilters]; exact List.mem_append_left _ hp)
    have hcv : (credErrors credsOf (filter_accounts bl v)).count (credFailMsg a) = 0 :=
      hcount0 v hanotv
        (fun p hp => by rw [hfilters]; exact List.mem_append_right _ (List.mem_cons_of_mem _ hp))
    omega
  · rw [scanOrganization_ok_scan_calls]
    intro cll hcll
    rw [List.mem_flatMap] at hcll
    obtain ⟨p, hp, hcm⟩ := hcll
    rw [List.mem_map] at hcm
    obtain ⟨c2, _, hcm⟩ := hcm
    rw [← hcm]
    exact hmem2 p hp
  · rw [scanOrganization_ok_state, scanOrganization_ok_state]
    exact orgFold_results_congr task arrival _ _ rfl
  · rw [scanOrganization_ok_state, scanOrganization_ok_state]
    exact orgFold_accounts_congr task arrival _ _ rfl
  · rw [scanOrganization_ok_state, scanOrganization_ok_state,
      orgFold_all_errors, orgFold_all_errors]
    simp only [herase, hfilters, hfilters2, hcredBig, credErrors_append]
    simp
/-- Witness for C3: a two-account organization where the second account's
delegation fails; the run equals the one-account run plus the single
failure entry. -/
theorem claim_C3_witness :
    (((([("1", "one"), ("2", "two")] : List (String × String))).map Prod.fst).Nodup ∧
    (("2", "two") ∈ filter_accounts [] [("1", "one"), ("2", "two")]) ∧
    ((fun id => if id = "1" then some (⟨"k", "s", "t"⟩ : Credentials) else none)
      (("2", "two") : String × String).1 = none) ∧
    (∀ p ∈ filter_accounts [] [("1", "one"), ("2", "two")],
      credFailMsg p = credFailMsg ("2", "two") → p = ("2", "two")) ∧
    List.Perm [(("1" : String), ("one" : String))]
      (submittedAccounts
        (fun id => if id = "1" then some ⟨"k", "s", "t"⟩ else none)
        (filter_accounts [] [("1", "one"), ("2", "two")]))) ∧
    ((credErrors (fun id => if id = "1" then some ⟨"k", "s", "t"⟩ else none)
        (filter_accounts [] [("1", "one"), ("2", "two")])).count
        (credFailMsg ("2", "two")) = 1 ∧
    (∀ p ∈ [(("1" : String), ("one" : String))], p.1 ≠ ("2", "two").1) ∧
    (∀ cll ∈ (scanOrganization true (.ok [("1", "one"), ("2", "two")]) [] []
        (fun id => if id = "1" then some ⟨"k", "s", "t"⟩ else none)
        (fun _ => .ok ⟨[], [], []⟩) [("1", "one")]).scan_calls,
      cll.1 ≠ ("2", "two").1) ∧
    (scanOrganization true (.ok [("1", "one"), ("2", "two")]) [] []
        (fun id => if id = "1" then some ⟨"k", "s", "t"⟩ else none)
        (fun _ => .ok ⟨[], [], []⟩) [("1", "one")]).state.results
      = (scanOrganization true
          (.ok (([("1", "one"), ("2", "two")] : List (String × String)).erase ("2", "two")))
          [] [] (fun id => if id = "1" then some ⟨"k", "s", "t"⟩ else none)
          (fun _ => .ok ⟨[], [], []⟩) [("1", "one")]).state.results ∧
    (scanOrganization true (.ok [("1", "one"), ("2", "two")]) [] []
        (fun id => if id = "1" then some ⟨"k", "s", "t"⟩ else none)
        (fun _ => .ok ⟨[], [], []⟩) [("1", "one")]).state.accounts_scanned
      = (scanOrganization true
          (.ok (([("1", "one"), ("2", "two")] : List (String × String)).erase ("2", "two")))
          [] [] (fun id => if id = "1" then some ⟨"k", "s", "t"⟩ else none)
          (fun _ => .ok ⟨[], [], []⟩) [("1", "one")]).state.accounts_scanned ∧
    List.Perm
      (scanOrganization true (.ok [("1", "one"), ("2", "two")]) [] []
        (fun id => if id = "1" then some ⟨"k", "s", "t"⟩ else none)
        (fun _ => .ok ⟨[], [], []⟩) [("1", "one")]).state.all_errors
      (credFailMsg ("2", "two") ::
        (scanOrganization true
          (.ok (([("1", "one"), ("2", "two")] : List (String × String)).erase ("2", "two")))
          [] [] (fun id => if id = "1" then some ⟨"k", "s", "t"⟩ else none)
          (fun _ => .ok ⟨[], [], []⟩) [("1", "one")]).state.all_errors)) :=
  ⟨⟨by decide, by decide, by decide, by decide, by decide⟩,
   claim_C3_delegation_failure_isolated [] [("1", "one"), ("2", "two")] []
     (fun id => if id = "1" then some ⟨"k", "s", "t"⟩ else none)
     (fun _ => .ok ⟨[], [], []⟩) [("1", "one")] ("2", "two")
     (by decide) (by decide) (by decide) (by decide) (by decide)⟩

/-- C5: the blacklist filter keeps exactly the non-excluded accounts, and
nothing downstream ever references an excluded account: every credential
call, every scan call, every error entry and every merged record originates
from an account that passed the filter. -/
theorem claim_C5_exclusion_invariant (bl : List String)
    (all_accounts : List (String × String)) (scanners : List Scanner)
    (regions : List String)
    (credsOf : String → Option Credentials)
    (scanCall : String → Scanner → String → ScanCallResult)
    (arrival : List (String × String))
    (hArr : arrival.Perm (submittedAccounts credsOf (filter_accounts bl all_accounts))) :
    (∀ p : String × String,
      p ∈ filter_accounts bl all_accounts ↔ (p ∈ all_accounts ∧ p.1 ∉ bl)) ∧
    (∀ id2 ∈ (scanOrganization true (.ok all_accounts) bl scanners credsOf
        (scanAccountTask scanners regions scanCall) arrival).cred_calls,
      id2 ∉ bl) ∧
    (∀ cll ∈ (scanOrganization true (.ok all_accounts) bl scanners credsOf
        (scanAccountTask scanners regions scanCall) arrival).scan_calls,
      cll.1 ∉ bl) ∧
    (∀ e ∈ (scanOrganization true (.ok all_accounts) bl scanners credsOf
        (scanAccountTask scanners regions scanCall) arrival).state.all_errors,
      ∃ p, p ∈ filter_accounts bl all_accounts ∧ p.1 ∉ bl ∧
        (e = credFailMsg p ∨ ∃ sc r t, sc ∈ scanners
          ∧ e = scanPrefix sc.resource_type p.1 p.2 r ++ t)) ∧
    (∀ k rec, rec ∈ resultsRecords (scanOrganization true (.ok all_accounts) bl
        scanners credsOf (scanAccountTask scanners regions scanCall)
        arrival).state.results k →
      ∃ p sc r, p ∈ filter_accounts bl all_accounts ∧ p.1 ∉ bl ∧ sc ∈ scanners ∧
        rec ∈ (scanCall p.1 sc r).okRecords) := by
  have hallmem : ∀ p : String × String,
      p ∈ filter_accounts bl all_accounts ↔ (p ∈ all_accounts ∧ p.1 ∉ bl) := by
    intro p
    rw [mem_filter_accounts]
    simp [is_account_allowed]
  have hnotbl : ∀ p : String × String,
      p ∈ filter_accounts bl all_accounts → p.1 ∉ bl :=
    fun p hp => ((hallmem p).mp hp).2
  have harrmem : ∀ p ∈ arrival, p ∈ filter_accounts bl all_accounts := by
    intro p hp
    rw [hArr.mem_iff] at hp
    exact List.mem_of_mem_filter hp
  refine ⟨hallmem, ?_, ?_, ?_, ?_⟩
  · rw [scanOrganization_ok_cred_calls]
    intro id2 hid2
    rw [List.mem_map] at hid2
    obtain ⟨p, hp, hpe⟩ := hid2
    exact hpe ▸ hnotbl p hp
  · rw [scanOrganization_ok_scan_calls]
    intro cll hcll
    rw [List.mem_flatMap] at hcll
    obtain ⟨p, hp, hcm⟩ := hcll
    rw [List.mem_map] at hcm
    obtain ⟨c2, _, hcm⟩ := hcm
    rw [← hcm]
    exact hnotbl p (harrmem p hp)
  · rw [scanOrganization_ok_state, orgFold_all_errors]
    intro e he
    rcases List.mem_append.mp he with he | he
    · obtain ⟨p, hp, _, hpe⟩ := (mem_credErrors credsOf _ e).mp he
      exact ⟨p, hp, hnotbl p hp, Or.inl hpe⟩
    · rw [List.mem_flatMap] at he
      obtain ⟨p, hp, he⟩ := he
      have herr : taskErrors p (scanAccountTask scanners regions scanCall p)
          = (scanUnits scanners regions).flatMap
              (unitError (scanCall p.1) p.1 p.2) := by
        simp [taskErrors, scanAccountTask, scanAccount_errors]
      rw [herr, List.mem_flatMap] at he
      obtain ⟨u, hu, he⟩ := he
      obtain ⟨t, ht⟩ := snd_scan_account_region_form u.1.resource_type
        (scanCall p.1 u.1 u.2) p.1 p.2 u.2 e he
      exact ⟨p, harrmem p hp, hnotbl p (harrmem p hp),
        Or.inr ⟨u.1, u.2, t, (mem_scanUnits scanners regions u hu).1, ht⟩⟩
  · intro k rec hrec
    rw [scanOrganization_ok_state, orgFold_records] at hrec
    simp only [resultsRecords_initResults, List.nil_append] at hrec
    by_cases hcont : resultsContains
        ((⟨initResults scanners,
          credErrors credsOf (filter_accounts bl all_accounts), 0⟩ : OrgState)).results k
    · rw [if_pos hcont, List.mem_flatMap] at hrec
      obtain ⟨p, hp, hrec⟩ := hrec
      rw [taskRecords_scanAccountTask, List.mem_flatMap] at hrec
      obtain ⟨sc, hsc, hrec⟩ := hrec
      by_cases hsheet : sc.sheet_name = k
      · rw [if_pos hsheet, List.mem_flatMap] at hrec
        obtain ⟨r, _, hrec⟩ := hrec
        exact ⟨p, sc, r, harrmem p hp, hnotbl p (harrmem p hp), hsc, hrec⟩
      · rw [if_neg hsheet] at hrec
        simp at hrec
    · rw [if_neg hcont] at hrec
      simp at hrec

/-- Witness for C5: account "2" is blacklisted; the filter keeps only
account "1" and the whole run references only account "1". -/
theorem claim_C5_witness :
    List.Perm [(("1" : String), ("one" : String))]
      (submittedAccounts (fun _ => some ⟨"k", "s", "t"⟩)
        (filter_accounts ["2"] [("1", "one"), ("2", "two")])) ∧
    ((∀ p : String × String,
      p ∈ filter_accounts ["2"] [("1", "one"), ("2", "two")]
        ↔ (p ∈ [("1", "one"), ("2", "two")] ∧ p.1 ∉ ["2"])) ∧
    (∀ id2 ∈ (scanOrganization true (.ok [("1", "one"), ("2", "two")]) ["2"]
        [⟨"E", "ES", false⟩] (fun _ => some ⟨"k", "s", "t"⟩)
        (scanAccountTask [⟨"E", "ES", false⟩] ["r"]
          (fun id _ _ => .ok [[("Account ID", id)]]))
        [("1", "one")]).cred_calls, id2 ∉ ["2"]) ∧
    (∀ cll ∈ (scanOrganization true (.ok [("1", "one"), ("2", "two")]) ["2"]
        [⟨"E", "ES", false⟩] (fun _ => some ⟨"k", "s", "t"⟩)
        (scanAccountTask [⟨"E", "ES", false⟩] ["r"]
          (fun id _ _ => .ok [[("Account ID", id)]]))
        [("1", "one")]).scan_calls, cll.1 ∉ ["2"]) ∧
    (∀ e ∈ (scanOrganization true (.ok [("1", "one"), ("2", "two")]) ["2"]
        [⟨"E", "ES", false⟩] (fun _ => some ⟨"k", "s", "t"⟩)
        (scanAccountTask [⟨"E", "ES", false⟩] ["r"]
          (fun id _ _ => .ok [[("Account ID", id)]]))
        [("1", "one")]).state.all_errors,
      ∃ p, p ∈ filter_accounts ["2"] [("1", "one"), ("2", "two")] ∧ p.1 ∉ ["2"] ∧
        (e = credFailMsg p ∨ ∃ sc r t, sc ∈ ([⟨"E", "ES", false⟩] : List Scanner)
          ∧ e = scanPrefix sc.resource_type p.1 p.2 r ++ t)) ∧
    (∀ k rec, rec ∈ resultsRecords (scanOrganization true
        (.ok [("1", "one"), ("2", "two")]) ["2"]
        [⟨"E", "ES", false⟩] (fun _ => some ⟨"k", "s", "t"⟩)
        (scanAccountTask [⟨"E", "ES", false⟩] ["r"]
          (fun id _ _ => .ok [[("Account ID", id)]]))
        [("1", "one")]).state.results k →
      ∃ (p : String × String) (sc : Scanner) (r : String),
        p ∈ filter_accounts ["2"] [("1", "one"), ("2", "two")] ∧
        p.1 ∉ ["2"] ∧ sc ∈ ([⟨"E", "ES", false⟩] : List Scanner) ∧
        rec ∈ (ScanCallResult.ok [[("Account ID", p.1)]]).okRecords)) :=
  ⟨by decide,
   claim_C5_exclusion_invariant ["2"] [("1", "one"), ("2", "two")]
     [⟨"E", "ES", false⟩] ["r"] (fun _ => some ⟨"k", "s", "t"⟩)
     (fun id _ _ => .ok [[("Account ID", id)]]) [("1", "one")] (by decide)⟩

end AwsInventory
